import Mathlib

/-!
# The snapshot backend of fstools (`backend/snapshot.c`)

A shallow embedding of the flash-resident record log of `backend/snapshot.c`
and machine-checked statements about it.

Conventions of the embedding

* `int` values are `Int`; every `int` operation of the source is followed by the
  two's-complement wrap `i32`, so a statement that needs the absence of overflow
  says so in a hypothesis.
* `uint32_t` values are `Nat` below `2 ^ 32`; the arithmetic on them is taken
  modulo `2 ^ 32`.
* bytes are `Nat` below `256`.
* the globals `mtdsize` and `erasesize` are fields of the device state.
* the primitives of `lib/mtd.c` follow their contract: an access fails when its range leaves
  the device or touches a bad offset, and `mtd_read_buffer` leaves the descriptor right behind
  the bytes it read.
* local files are byte strings per path; `stat` and `md5sum` fail on a path that does not
  exist, and `open` with `O_CREAT` and the reads and writes of local files do not fail.
* loops are recursive functions; where the source loop need not end, the function takes a
  bound on the number of rounds and returns `none` when the bound is reached.
-/

namespace Snapshot

/-! ## Machine integers -/

/-- Conversion of an integer to the 32-bit two's-complement `int`. -/
def i32 (x : Int) : Int := (x + 2147483648) % 4294967296 - 2147483648

/-- Conversion of an integer to `uint32_t`. -/
def u32 (x : Nat) : Nat := x % 4294967296

/-! ## Record header and its codec -/

def OWRT : Nat := 0x4f575254
def DATA : Nat := 0x44415441
def CONF : Nat := 0x434f4e46

/-- The `struct file_header` of the source: eight `uint32_t` words. -/
structure file_header where
  magic : Nat
  type : Nat
  seq : Nat
  length : Nat
  md5_0 : Nat
  md5_1 : Nat
  md5_2 : Nat
  md5_3 : Nat
  deriving DecidableEq, Repr

/-- The view `(uint32_t *) hdr` of a header: its eight words in memory order. -/
def file_header.words (h : file_header) : List Nat :=
  [h.magic, h.type, h.seq, h.length, h.md5_0, h.md5_1, h.md5_2, h.md5_3]

/-- Every word of the header is a `uint32_t`. -/
def file_header.wf (h : file_header) : Prop :=
  h.magic < 4294967296 ∧ h.type < 4294967296 ∧ h.seq < 4294967296 ∧ h.length < 4294967296 ∧
  h.md5_0 < 4294967296 ∧ h.md5_1 < 4294967296 ∧ h.md5_2 < 4294967296 ∧ h.md5_3 < 4294967296

instance (h : file_header) : Decidable h.wf := by
  unfold file_header.wf; infer_instance

/-- Byte order of the host the program runs on. -/
inductive ByteOrder where
  | little
  | big
  deriving DecidableEq, Repr

/-- Reversal of the four bytes of a 32-bit word. -/
def bswap32 (w : Nat) : Nat :=
  (w % 256) * 16777216 + (w / 256 % 256) * 65536 + (w / 65536 % 256) * 256 + w / 16777216 % 256

/-- The byte-order macro `cpu_to_be32` of the C library headers: a byte swap on a
little-endian host, the identity on a big-endian one. -/
def cpu_to_be32 (host : ByteOrder) (w : Nat) : Nat :=
  match host with
  | .little => bswap32 w
  | .big => w

/-- The byte-order macro `be32_to_cpu` of the C library headers. -/
def be32_to_cpu (host : ByteOrder) (w : Nat) : Nat :=
  match host with
  | .little => bswap32 w
  | .big => w

/-- `is_config`. -/
def is_config (h : file_header) : Bool :=
  h.magic == OWRT && h.type == CONF

/-- `valid_file_size`, with the constant of the source, `8 * 1024 * 1204`. -/
def valid_file_size (fs : Int) : Int :=
  if fs > 8 * 1024 * 1204 ∨ fs ≤ 0 then -1 else 0

/-- `hdr_to_be32`: the loop over the eight words, unrolled. -/
def hdr_to_be32 (host : ByteOrder) (h : file_header) : file_header :=
  { magic := cpu_to_be32 host h.magic
    type := cpu_to_be32 host h.type
    seq := cpu_to_be32 host h.seq
    length := cpu_to_be32 host h.length
    md5_0 := cpu_to_be32 host h.md5_0
    md5_1 := cpu_to_be32 host h.md5_1
    md5_2 := cpu_to_be32 host h.md5_2
    md5_3 := cpu_to_be32 host h.md5_3 }

/-- `be32_to_hdr`: the loop over the eight words, unrolled. -/
def be32_to_hdr (host : ByteOrder) (h : file_header) : file_header :=
  { magic := be32_to_cpu host h.magic
    type := be32_to_cpu host h.type
    seq := be32_to_cpu host h.seq
    length := be32_to_cpu host h.length
    md5_0 := be32_to_cpu host h.md5_0
    md5_1 := be32_to_cpu host h.md5_1
    md5_2 := be32_to_cpu host h.md5_2
    md5_3 := be32_to_cpu host h.md5_3 }

/-- The four bytes a `uint32_t` occupies in the memory of the host, lowest address first. -/
def store32 (host : ByteOrder) (w : Nat) : List Nat :=
  match host with
  | .little => [w % 256, w / 256 % 256, w / 65536 % 256, w / 16777216 % 256]
  | .big => [w / 16777216 % 256, w / 65536 % 256, w / 256 % 256, w % 256]

/-- The `uint32_t` the host reads from four bytes of its memory, lowest address first. -/
def load32 (host : ByteOrder) (b0 b1 b2 b3 : Nat) : Nat :=
  match host with
  | .little => b0 + b1 * 256 + b2 * 65536 + b3 * 16777216
  | .big => b3 + b2 * 256 + b1 * 65536 + b0 * 16777216

/-- The 32 bytes of a header in the memory of the host: what a write of
`sizeof(struct file_header)` bytes from `&hdr` sends to the device. -/
def hdr_image (host : ByteOrder) (h : file_header) : List Nat :=
  store32 host h.magic ++ store32 host h.type ++ store32 host h.seq ++ store32 host h.length ++
  store32 host h.md5_0 ++ store32 host h.md5_1 ++ store32 host h.md5_2 ++ store32 host h.md5_3

/-- The header the host sees after 32 bytes were read into `&hdr`. -/
def hdr_of_image (host : ByteOrder) (b : List Nat) : file_header :=
  let w := fun (i : Nat) =>
    load32 host (b.getD (4 * i) 0) (b.getD (4 * i + 1) 0) (b.getD (4 * i + 2) 0) (b.getD (4 * i + 3) 0)
  { magic := w 0, type := w 1, seq := w 2, length := w 3,
    md5_0 := w 4, md5_1 := w 5, md5_2 := w 6, md5_3 := w 7 }

/-- `pad_file_size`; `sizeof(struct file_header)` is 32, `%` is the truncating remainder of C. -/
def pad_file_size (erasesize : Int) (size : Int) : Int :=
  let size := i32 (size + 32)
  let mod := i32 (Int.tmod size erasesize)
  if mod ≠ 0 then i32 (i32 (size - mod) + erasesize) else size

/-! ## The platform and the raw device -/

/-- The platform: the byte order of the host and the 128-bit content digest of libubox
(`md5sum`), both used as primitives. The digest is the four `uint32_t` words `md5sum`
stores for a byte string. -/
structure Sys where
  host : ByteOrder
  md5 : List Nat → Nat × Nat × Nat × Nat

/-- One call issued to the raw device that changes it. -/
inductive MtdOp where
  | erase (first : Int) (count : Int)
  | write (offset : Int) (len : Nat)
  deriving DecidableEq, Repr

/-- The raw flash device behind the descriptor `fd`, with the globals `mtdsize` and
`erasesize` that `mtd_load` sets. `flash a` is the byte at offset `a`, `bad a` says that an
access touching offset `a` fails, and `log` lists the erase and write calls issued so far. -/
structure Mtd where
  mtdsize : Int
  erasesize : Int
  flash : Int → Nat
  bad : Int → Bool
  log : List MtdOp

/-- Modelled from the spec: `mtd_read_buffer` of `lib/mtd.c` (the `read(offset, buf, len)`
primitive of the raw device). It fails on a range that leaves the device or touches a bad
offset and otherwise yields the `len` bytes stored from `offset` on. -/
def mtd_read_buffer (d : Mtd) (offset : Int) (len : Nat) : Option (List Nat) :=
  if offset < 0 ∨ offset + len > d.mtdsize ∨
      (List.range len).any (fun (i : Nat) => d.bad (offset + (i : Int))) then
    none
  else
    some ((List.range len).map (fun (i : Nat) => d.flash (offset + (i : Int))))

/-- Modelled from the spec: `mtd_write_buffer` of `lib/mtd.c` (the `write(offset, buf, len)`
primitive of the raw device). It returns `-1` and stores nothing on a range that leaves the
device or touches a bad offset, and otherwise stores `buf` from `offset` on and returns `0`. -/
def mtd_write_buffer (d : Mtd) (buf : List Nat) (offset : Int) : Int × Mtd :=
  if offset < 0 ∨ offset + buf.length > d.mtdsize ∨
      (List.range buf.length).any (fun (i : Nat) => d.bad (offset + (i : Int))) then
    (-1, { d with log := d.log ++ [MtdOp.write offset buf.length] })
  else
    (0, { d with
          flash := fun a =>
            if offset ≤ a ∧ a < offset + buf.length then buf.getD (a - offset).toNat 0 else d.flash a
          log := d.log ++ [MtdOp.write offset buf.length] })

/-- Modelled from the spec: `mtd_erase` of `lib/mtd.c` (the `erase(unit, count)` primitive of
the raw device). The bytes of the units `first, …, first + count - 1` that lie on the device
become `0xff`; the call is recorded whatever its range. -/
def mtd_erase (d : Mtd) (first : Int) (count : Int) : Mtd :=
  { d with
    flash := fun a =>
      if first * d.erasesize ≤ a ∧ a < (first + count) * d.erasesize ∧ 0 ≤ a ∧ a < d.mtdsize then 255
      else d.flash a
    log := d.log ++ [MtdOp.erase first count] }

/-- The files of the staging directory: the bytes of each path that exists. -/
abbrev Fs := String → Option (List Nat)

/-- The file system after `path` was given the contents `v` (`none`: unlinked). -/
def Fs.set (fs : Fs) (path : String) (v : Option (List Nat)) : Fs :=
  fun p => if p = path then v else fs p

/-- The header the program holds after reading 32 bytes into `hdr` and calling `be32_to_hdr`. -/
def read_hdr (sys : Sys) (d : Mtd) (offset : Int) : Option file_header :=
  match mtd_read_buffer d offset 32 with
  | none => none
  | some b => some (be32_to_hdr sys.host (hdr_of_image sys.host b))

/-- `verify_file_hash`: `md5sum` fails on a path that does not exist, `memcmp` compares the
four digest words. -/
def verify_file_hash (sys : Sys) (fs : Fs) (file : String) (hash : Nat × Nat × Nat × Nat) : Int :=
  match fs file with
  | none => -1
  | some bytes => if sys.md5 bytes ≠ hash then -1 else 0

/-! ## Chain scanner and sentinel locator -/

/-- The `do … while` loop of `snapshot_next_free` from unit `block` with `*seq = seq`; the
first argument bounds the number of rounds (`none`: the bound was reached). The result is
the returned unit and the final `*seq`. -/
def next_free_loop (sys : Sys) (d : Mtd) : Nat → Int → Nat → Option (Int × Nat)
  | 0, _, _ => none
  | fuel + 1, block, seq =>
    match read_hdr sys d (i32 (block * d.erasesize)) with
    | none => some (0, seq)
    | some hdr =>
      if hdr.magic ≠ OWRT then some (block, seq)
      else if hdr.type = DATA ∧ valid_file_size (i32 hdr.length) = 0 then
        if u32 (seq + 1) ≠ hdr.seq ∧ block ≠ 0 then some (block, seq)
        else
          next_free_loop sys d fuel
            (i32 (block + i32 (Int.tdiv (pad_file_size d.erasesize (i32 hdr.length)) d.erasesize)))
            hdr.seq
      else if hdr.type = DATA then next_free_loop sys d fuel block seq
      else some (block, seq)

/-- `snapshot_next_free`; `seed` is the value `rand()` returned. -/
def snapshot_next_free (sys : Sys) (d : Mtd) (seed : Nat) (fuel : Nat) : Option (Int × Nat) :=
  next_free_loop sys d fuel 0 seed

/-- The `for (i = …; i > 0; i--)` loop of `config_find` from `i = n`, with the current
contents of `*sentinel`; the result is the returned value and the final `*sentinel`. -/
def sentinel_scan (sys : Sys) (d : Mtd) (next : Int) : Nat → file_header → Int × file_header
  | 0, sentinel => (-1, sentinel)
  | i + 1, sentinel =>
    match read_hdr sys d (i32 (((i : Int) + 1) * d.erasesize)) with
    | none => (-1, sentinel)
    | some s =>
      if s.magic = OWRT ∧ s.type = CONF ∧ valid_file_size (i32 s.length) = 0 then
        if next = (i : Int) + 1 then (-1, s) else ((i : Int) + 1, s)
      else sentinel_scan sys d next i s

/-- `config_find`: the returned value with the final `*conf` and `*sentinel`. `conf0` and
`sentinel0` are what the caller's structures held before the call, `seed` and `fuel` belong to
the call of `snapshot_next_free` (`none`: that call did not return within `fuel` rounds). -/
def config_find (sys : Sys) (d : Mtd) (seed : Nat) (fuel : Nat) (conf0 sentinel0 : file_header) :
    Option (Int × file_header × file_header) :=
  match snapshot_next_free sys d seed fuel with
  | none => none
  | some (next, _) =>
    let conf1 := { conf0 with magic := 0 }
    let sentinel1 := { sentinel0 with magic := 0 }
    let conf :=
      match read_hdr sys d next with
      | some h => h
      | none => conf1
    let r := sentinel_scan sys d next (i32 (i32 (Int.tdiv d.mtdsize d.erasesize) - 1)).toNat sentinel1
    some (r.1, conf, r.2)

/-! ## Record writer and record reader -/

/-- The `while ((len = read(in, buffer, sizeof(buffer))) > 0)` loop of `snapshot_write_file`
over the bytes of the source not yet read. Every round takes at least one byte, so a first
argument above the number of those bytes never runs out. -/
def write_payload : Nat → Mtd → List Nat → Int → Int × Mtd
  | 0, d, _, _ => (0, d)
  | fuel + 1, d, rest, offset =>
    let buffer := rest.take 256
    if buffer.length > 0 then
      let w := mtd_write_buffer d buffer offset
      if w.1 < 0 then (-1, w.2)
      else write_payload fuel w.2 (rest.drop 256) (i32 (offset + buffer.length))
    else (0, d)

/-- `snapshot_write_file`: the returned value and the device afterwards. `stat` and `md5sum`
fail exactly on a path that does not exist. -/
def snapshot_write_file (sys : Sys) (d : Mtd) (fs : Fs) (block : Int) (file : String)
    (seq : Nat) (type : Nat) : Int × Mtd :=
  match fs file with
  | none => (-1, d)
  | some bytes =>
    let md5 := sys.md5 bytes
    let st_size := i32 bytes.length
    if i32 (i32 (block * d.erasesize) + pad_file_size d.erasesize st_size) > d.mtdsize then (-1, d)
    else
      let d1 := mtd_erase d block (i32 (Int.tdiv (pad_file_size d.erasesize st_size) d.erasesize))
      let d2 := mtd_erase d1
        (i32 (block + i32 (Int.tdiv (pad_file_size d.erasesize st_size) d.erasesize))) 1
      let hdr : file_header :=
        { length := u32 bytes.length, magic := OWRT, type := type, seq := seq,
          md5_0 := md5.1, md5_1 := md5.2.1, md5_2 := md5.2.2.1, md5_3 := md5.2.2.2 }
      let w := mtd_write_buffer d2 (hdr_image sys.host (hdr_to_be32 sys.host hdr))
        (i32 (block * d.erasesize))
      if w.1 ≠ 0 then (-1, w.2)
      else write_payload (bytes.length + 1) w.2 bytes (i32 (i32 (block * d.erasesize) + 32))

/-- The `while (hdr.length > 0)` loop of `snapshot_read_file`: `length` is `hdr.length`,
`pos` the position of the descriptor `fd`, `acc` the bytes written to `out` so far. The result
is `-1` when the loop returned `-1` and `0` when it ended, with the final `hdr.length` and the
bytes written. Every round takes at least one byte, so a first argument of at least `length`
never runs out. -/
def read_payload (d : Mtd) : Nat → Nat → Int → List Nat → Int × Nat × List Nat
  | 0, length, _, acc => (0, length, acc)
  | fuel + 1, length, pos, acc =>
    if length > 0 then
      let len := if length < 256 then length else 256
      match mtd_read_buffer d pos len with
      | none => (-1, length, acc)
      | some buffer => read_payload d fuel (length - len) (pos + len) (acc ++ buffer)
    else (0, length, acc)

/-- `snapshot_read_file`: the returned value and the files afterwards. The descriptor `fd`
stands right behind the header after `mtd_read_buffer`; `open(file, O_WRONLY | O_CREAT)`
creates an absent file and keeps the bytes of an existing one, which the writes replace from
offset 0 on. -/
def snapshot_read_file (sys : Sys) (d : Mtd) (fs : Fs) (block : Int) (file : String)
    (type : Nat) : Int × Fs :=
  match read_hdr sys d (i32 (block * d.erasesize)) with
  | none => (-1, fs)
  | some hdr =>
    if hdr.magic ≠ OWRT then (-1, fs)
    else if hdr.type ≠ type then (-1, fs)
    else if valid_file_size (i32 hdr.length) ≠ 0 then (-1, fs)
    else
      let old := (fs file).getD []
      let r := read_payload d hdr.length hdr.length (i32 (block * d.erasesize) + 32) []
      let fs1 := fs.set file (some (r.2.2 ++ old.drop r.2.2.length))
      if r.1 ≠ 0 then (-1, fs1)
      else
        let hdr1 := { hdr with length := r.2.1 }
        if verify_file_hash sys fs1 file (hdr1.md5_0, hdr1.md5_1, hdr1.md5_2, hdr1.md5_3) ≠ 0 then
          (0, fs1.set file none)
        else
          (i32 (block + i32 (Int.tdiv (pad_file_size d.erasesize (i32 hdr1.length)) d.erasesize)),
           fs1)

/-! ## Configuration copies and the reconciler -/

/-- `sentinel_write`: `stat` fails on a staging file that does not exist; `seed` and `fuel`
belong to the call of `snapshot_next_free` (`none`: that call did not return). -/
def sentinel_write (sys : Sys) (d : Mtd) (fs : Fs) (seed fuel : Nat) (_seq : Nat) :
    Option (Int × Mtd) :=
  match fs "/tmp/config.tar.gz" with
  | none => some (-1, d)
  | some bytes =>
    match snapshot_next_free sys d seed fuel with
    | none => none
    | some (_, seq) =>
      let seq := if _seq ≠ 0 then _seq else seq
      let block := i32 (Int.tdiv d.mtdsize d.erasesize)
      let block :=
        i32 (block - i32 (Int.tdiv (pad_file_size d.erasesize (i32 bytes.length)) d.erasesize))
      let block := if block < 0 then 0 else block
      some (snapshot_write_file sys d fs block "/tmp/config.tar.gz" seq CONF)

/-- `volatile_write`. -/
def volatile_write (sys : Sys) (d : Mtd) (fs : Fs) (seed fuel : Nat) (_seq : Nat) :
    Option (Int × Mtd) :=
  match snapshot_next_free sys d seed fuel with
  | none => none
  | some (block, seq) =>
    let seq := if _seq ≠ 0 then _seq else seq
    let block := if block < 0 then 0 else block
    some (snapshot_write_file sys d fs block "/tmp/config.tar.gz" seq CONF)

/-- `snapshot_write`, after `mtd_load` succeeded: the returned value and the device. -/
def snapshot_write (sys : Sys) (d : Mtd) (fs : Fs) (seed fuel : Nat) : Option (Int × Mtd) :=
  match snapshot_next_free sys d seed fuel with
  | none => none
  | some (block, seq) =>
    let block := if block < 0 then 0 else block
    some (snapshot_write_file sys d fs block "/tmp/snapshot.tar.gz" (u32 (seq + 1)) DATA)

/-- `snapshot_sync`, after `mtd_load` succeeded: the device and the files when it returns.
`rnd 0, rnd 1, …` are the values of the successive calls of `rand()`, `fuel` bounds every
scan (`none`: a scan did not return), `conf0` and `sentinel0` are what the uninitialised
structures `conf` and `sentinel` hold. -/
def snapshot_sync (sys : Sys) (d : Mtd) (fs : Fs) (rnd : Nat → Nat) (fuel : Nat)
    (conf0 sentinel0 : file_header) : Option (Mtd × Fs) :=
  match snapshot_next_free sys d (rnd 0) fuel with
  | none => none
  | some (next, seq) =>
    match config_find sys d (rnd 1) fuel conf0 sentinel0 with
    | none => none
    | some (block, conf_in, sentinel_in) =>
      let conf_stale := is_config conf_in && conf_in.seq != seq
      let conf := if conf_stale then { conf_in with magic := 0 } else conf_in
      let d1 := if conf_stale then mtd_erase d next 2 else d
      let sentinel_stale := is_config sentinel_in && sentinel_in.seq != seq
      let sentinel := if sentinel_stale then { sentinel_in with magic := 0 } else sentinel_in
      let d2 := if sentinel_stale then mtd_erase d1 block 1 else d1
      let r : Option (Mtd × Fs) :=
        if !is_config conf && !is_config sentinel then some (d2, fs)
        else if ((is_config conf && is_config sentinel) &&
              (decide ((conf.md5_0, conf.md5_1, conf.md5_2, conf.md5_3)
                  ≠ (sentinel.md5_0, sentinel.md5_1, sentinel.md5_2, sentinel.md5_3))
                || conf.seq != sentinel.seq)) ||
            (is_config conf && !is_config sentinel) then
          match snapshot_next_free sys d2 (rnd 2) fuel with
          | none => none
          | some (next2, _) =>
            let rd := snapshot_read_file sys d2 fs next2 "/tmp/config.tar.gz" CONF
            if rd.1 > 0 then
              match sentinel_write sys d2 rd.2 (rnd 3) fuel conf.seq with
              | none => none
              | some w => some (w.2, rd.2)
            else some (d2, rd.2)
        else if !is_config conf && is_config sentinel && decide (next ≠ 0) then
          let rd := snapshot_read_file sys d2 fs block "/tmp/config.tar.gz" CONF
          if rd.1 > 0 then
            match volatile_write sys d2 rd.2 (rnd 2) fuel sentinel.seq with
            | none => none
            | some w => some (w.2, rd.2)
          else some (d2, rd.2)
        else some (d2, fs)
      r.map (fun p => (p.1, p.2.set "/tmp/config.tar.gz" none))

/-! ## Vocabulary of the statements -/

/-- The number of erase units a record with `len` payload bytes occupies,
`ceil((32 + len) / E)`. -/
def span (E : Int) (len : Int) : Int := (len + 32 + E - 1) / E

/-- The device holds Data records with the payload lengths `lens`, each a 32-bit length that
passes the length check, back to back from unit `u` on (each record starts at the unit right
behind the span of the one before), with the sequences `s, s + 1, …` modulo `2 ^ 32`. -/
def data_chain (sys : Sys) (d : Mtd) : Int → Nat → List Nat → Prop
  | _, _, [] => True
  | u, s, len :: rest =>
    (read_hdr sys d (u * d.erasesize)).map (fun h => (h.magic, h.type, h.seq, h.length))
      = some (OWRT, DATA, u32 s, len) ∧
    len < 4294967296 ∧ valid_file_size (i32 len) = 0 ∧
    data_chain sys d (u + span d.erasesize len) (s + 1) rest

/-- The unit right behind records with the payload lengths `lens` laid out from unit `u`. -/
def chain_end (E : Int) : Int → List Nat → Int
  | u, [] => u
  | u, len :: rest => chain_end E (u + span E len) rest

instance data_chain_decidable (sys : Sys) (d : Mtd) :
    ∀ (lens : List Nat) (u : Int) (s : Nat), Decidable (data_chain sys d u s lens)
  | [], _, _ => isTrue trivial
  | len :: rest, u, s =>
    have := data_chain_decidable sys d rest (u + span d.erasesize len) (s + 1)
    (inferInstance : Decidable (_ ∧ _ ∧ _ ∧ _))

/-- The test of the loop of `config_find` on unit `i`: the header is read and has the magic
tag, the kind Config and a length that `valid_file_size` accepts. -/
def config_accepted_at (sys : Sys) (d : Mtd) (i : Int) : Prop :=
  ∃ h, read_hdr sys d (i * d.erasesize) = some h ∧
    h.magic = OWRT ∧ h.type = CONF ∧ valid_file_size (i32 h.length) = 0

/-- A sane payload length in the words of the specification: `0 < length <= 8 MiB`. -/
def sane_length (length : Nat) : Prop := 0 < length ∧ length ≤ 8 * 1024 * 1024

instance (length : Nat) : Decidable (sane_length length) := by
  unfold sane_length; infer_instance

/-- Unit `i` holds a Config with a sane length in the words of the specification: its header
has the magic tag, the kind Config and a length with `0 < length <= 8 MiB`. -/
def config_at (sys : Sys) (d : Mtd) (i : Int) : Prop :=
  match read_hdr sys d (i * d.erasesize) with
  | some h => h.magic = OWRT ∧ h.type = CONF ∧ sane_length h.length
  | none => False

instance (sys : Sys) (d : Mtd) (i : Int) : Decidable (config_at sys d i) := by
  unfold config_at
  cases read_hdr sys d (i * d.erasesize) with
  | none => exact isFalse (fun h => h)
  | some h =>
    exact (inferInstance : Decidable (h.magic = OWRT ∧ h.type = CONF ∧ sane_length h.length))

/-- The four words of a digest are 32-bit words. -/
def digest_wf (g : Nat × Nat × Nat × Nat) : Prop :=
  g.1 < 4294967296 ∧ g.2.1 < 4294967296 ∧ g.2.2.1 < 4294967296 ∧ g.2.2.2 < 4294967296

instance (g : Nat × Nat × Nat × Nat) : Decidable (digest_wf g) := by
  unfold digest_wf; infer_instance

/-- No access to the device fails for a bad offset. -/
def Mtd.fault_free (d : Mtd) : Prop := ∀ a, d.bad a = false

/-- The contents `flash` with the bytes `buf` stored from offset `off` on. -/
def put (flash : Int → Nat) (off : Int) (buf : List Nat) : Int → Nat :=
  fun a => if off ≤ a ∧ a < off + buf.length then buf.getD (a - off).toNat 0 else flash a

/-- The device `d2` is the device `d` after the record with the header `h` and the payload
`bytes` was stored at unit `block`: the record is read back from `d2`, every byte below the
record and from the second unit behind its span on is as on `d`, and the bytes of the guard
unit behind the span that lie on the device are erased. -/
def stored (sys : Sys) (d d2 : Mtd) (block : Int) (h : file_header) (bytes : List Nat) : Prop :=
  d2.mtdsize = d.mtdsize ∧ d2.erasesize = d.erasesize ∧ d2.bad = d.bad ∧
  read_hdr sys d2 (block * d.erasesize) = some h ∧
  mtd_read_buffer d2 (block * d.erasesize + 32) bytes.length = some bytes ∧
  (∀ a, a < block * d.erasesize → d2.flash a = d.flash a) ∧
  (∀ a, (block + span d.erasesize bytes.length + 1) * d.erasesize ≤ a → d2.flash a = d.flash a) ∧
  (∀ a, (block + span d.erasesize bytes.length) * d.erasesize ≤ a →
    a < (block + span d.erasesize bytes.length + 1) * d.erasesize → a < d.mtdsize →
    d2.flash a = 255)

/-! ## Example devices -/

/-- A stand-in for the digest primitive in the examples: length, byte sum, a rolling
checksum and the first byte. The examples use it only to tell whether two byte strings have
the same digest. -/
def example_md5 (b : List Nat) : Nat × Nat × Nat × Nat :=
  (b.length % 4294967296, b.sum % 4294967296,
   b.foldl (fun a x => (a * 31 + x) % 4294967296) 7, b.headD 0)

/-- The platform of the examples: a little-endian host. -/
def example_sys : Sys := ⟨ByteOrder.little, example_md5⟩

/-- The bytes of a record on a device with 64-byte erase units: the header most significant
byte first, the payload, and `0xff` up to the end of the last unit. -/
def example_record (h : file_header) (payload : List Nat) : List Nat :=
  hdr_image ByteOrder.big h ++ payload ++ List.replicate ((64 - (32 + payload.length) % 64) % 64) 255

/-- A fault-free device with 64-byte erase units that holds `bytes`. -/
def example_mtd (bytes : List Nat) : Mtd :=
  { mtdsize := bytes.length, erasesize := 64, flash := fun a => bytes.getD a.toNat 255,
    bad := fun _ => false, log := [] }

/-- Five units: Data records with the sequences 5 (3 bytes, one unit) and 6 (40 bytes, two
units), then two erased units. -/
def example_chain_56 : Mtd :=
  example_mtd
    (example_record ⟨OWRT, DATA, 5, 3, 0, 0, 0, 0⟩ [1, 2, 3] ++
     example_record ⟨OWRT, DATA, 6, 40, 0, 0, 0, 0⟩ (List.replicate 40 7) ++
     List.replicate 128 255)

/-- Five units: Data records with the sequences 5 (one unit), 6 (two units) and 9 (one
unit), then an erased unit. -/
def example_chain_569 : Mtd :=
  example_mtd
    (example_record ⟨OWRT, DATA, 5, 3, 0, 0, 0, 0⟩ [1, 2, 3] ++
     example_record ⟨OWRT, DATA, 6, 40, 0, 0, 0, 0⟩ (List.replicate 40 7) ++
     example_record ⟨OWRT, DATA, 9, 2, 0, 0, 0, 0⟩ [8, 9] ++
     List.replicate 64 255)

/-- The device of `example_chain_56` with a read fault in unit 3. -/
def example_fault_unit3 : Mtd :=
  { example_chain_56 with bad := fun a => decide (192 ≤ a ∧ a < 256) }

/-- An erased device of four units whose first unit cannot be read. -/
def example_fault_unit0 : Mtd :=
  { example_mtd (List.replicate 256 255) with bad := fun a => decide (0 ≤ a ∧ a < 64) }

/-- An erased, fault-free device of four units. -/
def example_blank : Mtd := example_mtd (List.replicate 256 255)

/-- Six units: a Data record with the sequence 5 at unit 0, an erased unit 1, Config records
with the sequence 5 at the units 2 and 4, erased units 3 and 5. -/
def example_two_configs : Mtd :=
  example_mtd
    (example_record ⟨OWRT, DATA, 5, 3, 0, 0, 0, 0⟩ [1, 2, 3] ++
     List.replicate 64 255 ++
     example_record ⟨OWRT, CONF, 5, 2, 0, 0, 0, 0⟩ [8, 9] ++
     List.replicate 64 255 ++
     example_record ⟨OWRT, CONF, 5, 2, 0, 0, 0, 0⟩ [8, 9] ++
     List.replicate 64 255)

/-- A staging directory that holds a snapshot archive of 100 bytes. -/
def example_fs : Fs :=
  fun p => if p = "/tmp/snapshot.tar.gz" then some (List.replicate 100 7) else none

/-- The erased device of five units after `snapshot_write_file` stored the archive of
`example_fs` at unit 0 as a Data record with the sequence 7: a record of three units. -/
def example_written : Mtd :=
  (snapshot_write_file example_sys (example_mtd (List.replicate 320 255)) example_fs 0
    "/tmp/snapshot.tar.gz" 7 DATA).2

/-- Two units: at unit 0 a Data record of the two payload bytes `1, 2` whose header carries
the digest of the three bytes `1, 2, 3`; an erased unit behind it. -/
def example_digest_of_longer : Mtd :=
  example_mtd
    (example_record
      ⟨OWRT, DATA, 1, 2, (example_md5 [1, 2, 3]).1, (example_md5 [1, 2, 3]).2.1,
        (example_md5 [1, 2, 3]).2.2.1, (example_md5 [1, 2, 3]).2.2.2⟩ [1, 2] ++
     List.replicate 64 255)

/-- A staging directory in which the destination of the reader already holds three bytes. -/
def example_stale_fs : Fs :=
  fun p => if p = "/tmp/snapshot/block0.tar.gz" then some [9, 9, 3] else none

/-- The bytes of a record with 64-byte erase units whose header carries the digest of its
payload. -/
def example_valid (type seq : Nat) (payload : List Nat) : List Nat :=
  example_record
    ⟨OWRT, type, seq, payload.length, (example_md5 payload).1, (example_md5 payload).2.1,
      (example_md5 payload).2.2.1, (example_md5 payload).2.2.2⟩ payload

/-- The values of `rand()` in the examples. -/
def example_rnd : Nat → Nat := fun i => 1000 + i

/-- What the uninitialised headers of the examples hold. -/
def example_hdr0 : file_header := ⟨0, 0, 0, 0, 0, 0, 0, 0⟩

/-- A staging directory with a snapshot archive of 100 bytes in which the destination of the
reader already holds 101 bytes. -/
def example_long_stale_fs : Fs :=
  fun p =>
    if p = "/tmp/snapshot.tar.gz" then some (List.replicate 100 7)
    else if p = "/tmp/snapshot/block0.tar.gz" then some (List.replicate 101 9)
    else none

/-- Six units: a Data record with the sequence 5 at unit 0, the forward Config copy with the
sequence 5 and the payload `4, 4` at unit 1, a Config record with the sequence 5 and the
payload `6, 6, 6` at unit 3, a Config record with the sequence 9 at unit 5; the units 2 and 4
are erased. Every record carries the digest of its payload. -/
def example_two_sentinels : Mtd :=
  example_mtd
    (example_valid DATA 5 [1, 2, 3] ++ example_valid CONF 5 [4, 4] ++ List.replicate 64 255 ++
     example_valid CONF 5 [6, 6, 6] ++ List.replicate 64 255 ++ example_valid CONF 9 [7])

/-- Four units: a Data record with the sequence 8 at unit 0, the forward Config copy with the
sequence 8 at unit 1, an erased unit, the sentinel Config copy with the sequence 7 at unit 3.
Every record carries the digest of its payload. -/
def example_forward_8_sentinel_7 : Mtd :=
  example_mtd
    (example_valid DATA 8 [1, 2, 3] ++ example_valid CONF 8 [4, 4] ++ List.replicate 64 255 ++
     example_valid CONF 7 [6, 6, 6])

/-- Three units: a Data record with the sequence 7 at unit 0 and the same configuration with
the sequence 7 as the forward copy at unit 1 and as the sentinel copy at unit 2. -/
def example_consistent : Mtd :=
  example_mtd
    (example_valid DATA 7 [1, 2, 3] ++ example_valid CONF 7 [4, 4] ++ example_valid CONF 7 [4, 4])

/-- Four units: a Data record with the sequence 5 at unit 0, two erased units, and at unit 3
a Config header with the sequence 5 whose digest is not the digest of the payload behind
it. -/
def example_torn_sentinel : Mtd :=
  example_mtd
    (example_valid DATA 5 [1, 2, 3] ++ List.replicate 128 255 ++
     example_record ⟨OWRT, CONF, 5, 2, 1, 2, 3, 4⟩ [6, 6])

/-- Four units: a Data record with the sequence 5 at unit 0, two erased units, and at unit 3
a Config record with the sequence 5 that carries the digest of its payload `6, 6`. -/
def example_sentinel_only : Mtd :=
  example_mtd
    (example_valid DATA 5 [1, 2, 3] ++ List.replicate 128 255 ++ example_valid CONF 5 [6, 6])

/-- Two units: at unit 0 a header with the magic tag, the kind Data and the length 0; an
erased unit behind it. -/
def example_zero_length : Mtd :=
  example_mtd (example_record ⟨OWRT, DATA, 5, 0, 0, 0, 0, 0⟩ [] ++ List.replicate 64 255)

/-- A staging directory that holds a snapshot archive of four bytes. -/
def example_small_fs : Fs :=
  fun p => if p = "/tmp/snapshot.tar.gz" then some [1, 2, 3, 4] else none

/-- Four units: a Data record with the sequence 5 at unit 0, a Config record with the
sequence 9 at unit 1, which is the forward free unit, and two erased units. -/
def example_collision : Mtd :=
  example_mtd
    (example_valid DATA 5 [1, 2, 3] ++ example_valid CONF 9 [4, 4] ++ List.replicate 128 255)

/-- Six units: a Data record with the sequence 5 at unit 0, an erased unit 1, a Config record
of two bytes at unit 2, and at unit 4 a header with the magic tag, the kind Config and the
length 9000000; the units 3 and 5 are erased. -/
def example_oversized_config : Mtd :=
  example_mtd
    (example_valid DATA 5 [1, 2, 3] ++ List.replicate 64 255 ++ example_valid CONF 5 [8, 9] ++
     List.replicate 64 255 ++ example_record ⟨OWRT, CONF, 5, 9000000, 0, 0, 0, 0⟩ [] ++
     List.replicate 64 255)

/-- Four units: at unit 0 a header with the magic tag, the kind Data and the length 0, an
erased unit 1, a Config record of two bytes at unit 2, an erased unit 3. -/
def example_stuck_scan : Mtd :=
  example_mtd
    (example_record ⟨OWRT, DATA, 5, 0, 0, 0, 0, 0⟩ [] ++ List.replicate 64 255 ++
     example_valid CONF 5 [8, 9] ++ List.replicate 64 255)

theorem i32_of_range (x : Int) (h0 : -2147483648 ≤ x) (h1 : x < 2147483648) : i32 x = x := by
  unfold i32; omega

theorem bswap32_lt (w : Nat) : bswap32 w < 4294967296 := by
  unfold bswap32; omega

/-- The four bytes of a word that is given by its bytes, most significant first. -/
theorem bytes_of_be32 (a b c e : Nat) (ha : a < 256) (hb : b < 256) (hc : c < 256) (he : e < 256) :
    (a * 16777216 + b * 65536 + c * 256 + e) % 256 = e ∧
    (a * 16777216 + b * 65536 + c * 256 + e) / 256 % 256 = c ∧
    (a * 16777216 + b * 65536 + c * 256 + e) / 65536 % 256 = b ∧
    (a * 16777216 + b * 65536 + c * 256 + e) / 16777216 % 256 = a := by
  refine ⟨?_, ?_, ?_, ?_⟩ <;> omega

theorem bswap32_bswap32 (w : Nat) (h : w < 4294967296) : bswap32 (bswap32 w) = w := by
  obtain ⟨h0, h1, h2, h3⟩ := bytes_of_be32 (w % 256) (w / 256 % 256) (w / 65536 % 256)
    (w / 16777216 % 256) (by omega) (by omega) (by omega) (by omega)
  unfold bswap32
  rw [h0, h1, h2, h3]
  clear h0 h1 h2 h3
  omega

theorem be32_to_cpu_cpu_to_be32 (host : ByteOrder) (w : Nat) (h : w < 4294967296) :
    be32_to_cpu host (cpu_to_be32 host w) = w := by
  cases host
  · exact bswap32_bswap32 w h
  · rfl

/-- On either host the memory image of `cpu_to_be32 w` is the big-endian image of `w`. -/
theorem store32_cpu_to_be32 (host : ByteOrder) (w : Nat) :
    store32 host (cpu_to_be32 host w)
      = [w / 16777216 % 256, w / 65536 % 256, w / 256 % 256, w % 256] := by
  cases host
  · obtain ⟨h0, h1, h2, h3⟩ := bytes_of_be32 (w % 256) (w / 256 % 256) (w / 65536 % 256)
      (w / 16777216 % 256) (by omega) (by omega) (by omega) (by omega)
    simp only [store32, cpu_to_be32, bswap32, h0, h1, h2, h3]
  · rfl

/-! ## Record codec -/

/-- C1. For every header `h` of eight 32-bit words and either host byte order,
`be32_to_hdr (hdr_to_be32 h) = h`, and the memory image of the encoded header holds each of
the eight words most significant byte first. -/
theorem C1_hdr_roundtrip (host : ByteOrder) (h : file_header) (hw : h.wf) :
    be32_to_hdr host (hdr_to_be32 host h) = h ∧
    hdr_image host (hdr_to_be32 host h)
      = (h.words.map fun w => [w / 16777216 % 256, w / 65536 % 256, w / 256 % 256, w % 256]).flatten := by
  obtain ⟨h0, h1, h2, h3, h4, h5, h6, h7⟩ := hw
  constructor
  · cases h
    simp only [be32_to_hdr, hdr_to_be32, file_header.mk.injEq]
    exact ⟨be32_to_cpu_cpu_to_be32 host _ h0, be32_to_cpu_cpu_to_be32 host _ h1,
      be32_to_cpu_cpu_to_be32 host _ h2, be32_to_cpu_cpu_to_be32 host _ h3,
      be32_to_cpu_cpu_to_be32 host _ h4, be32_to_cpu_cpu_to_be32 host _ h5,
      be32_to_cpu_cpu_to_be32 host _ h6, be32_to_cpu_cpu_to_be32 host _ h7⟩
  · simp only [hdr_image, hdr_to_be32, store32_cpu_to_be32, file_header.words, List.map_cons,
      List.map_nil, List.flatten, List.cons_append, List.nil_append, List.append_nil]

/-- C1, at a Data header on a little-endian host. -/
theorem C1_hdr_roundtrip_witness :
    (file_header.mk OWRT DATA 7 70000 1 2 3 4).wf ∧
    be32_to_hdr .little (hdr_to_be32 .little (file_header.mk OWRT DATA 7 70000 1 2 3 4))
      = file_header.mk OWRT DATA 7 70000 1 2 3 4 ∧
    hdr_image .little (hdr_to_be32 .little (file_header.mk OWRT DATA 7 70000 1 2 3 4))
      = [0x4f, 0x57, 0x52, 0x54, 0x44, 0x41, 0x54, 0x41, 0, 0, 0, 7, 0, 1, 0x11, 0x70,
         0, 0, 0, 1, 0, 0, 0, 2, 0, 0, 0, 3, 0, 0, 0, 4] :=
  ⟨by decide, (C1_hdr_roundtrip .little _ (by decide)).1,
    (C1_hdr_roundtrip .little _ (by decide)).2.trans (by decide)⟩

/-- The number of erase units a record with `l` payload bytes spans, by cases on the
remainder of the unpadded size. -/
theorem span_cases (E l : Int) (hE : 0 < E) :
    (l + 32 + E - 1) / E = if (l + 32) % E = 0 then (l + 32) / E else (l + 32) / E + 1 := by
  have hm0 : 0 ≤ (l + 32) % E := Int.emod_nonneg _ (by omega)
  have hm1 : (l + 32) % E < E := Int.emod_lt_of_pos _ hE
  have hd : E * ((l + 32) / E) + (l + 32) % E = l + 32 := Int.ediv_add_emod _ _
  split
  · next hz =>
    have h1 : l + 32 + E - 1 = (E - 1) + E * ((l + 32) / E) := by omega
    rw [h1, Int.add_mul_ediv_left _ _ (by omega : E ≠ 0),
      Int.ediv_eq_zero_of_lt (by omega) (by omega)]
    omega
  · next hz =>
    have h1 : l + 32 + E - 1 = ((l + 32) % E - 1) + E * ((l + 32) / E + 1) := by
      rw [mul_add]; omega
    rw [h1, Int.add_mul_ediv_left _ _ (by omega : E ≠ 0),
      Int.ediv_eq_zero_of_lt (by omega) (by omega)]
    omega

/-- The padded size of a record, when it fits an `int`: the size with the header rounded
up to the erase-unit size. -/
theorem pad_file_size_eq (E l : Int) (hE : 0 < E) (hl : 0 ≤ l)
    (hov : E * ((l + 32 + E - 1) / E) ≤ 2147483647) :
    pad_file_size E l = E * ((l + 32 + E - 1) / E) := by
  have hm0 : 0 ≤ (l + 32) % E := Int.emod_nonneg _ (by omega)
  have hm1 : (l + 32) % E < E := Int.emod_lt_of_pos _ hE
  have hd : E * ((l + 32) / E) + (l + 32) % E = l + 32 := Int.ediv_add_emod _ _
  have hq : 0 ≤ E * ((l + 32) / E) := by
    have := Int.ediv_nonneg (by omega : 0 ≤ l + 32) (by omega : 0 ≤ E)
    positivity
  have ht : Int.tmod (l + 32) E = (l + 32) % E := Int.tmod_eq_emod (by omega) (by omega)
  rw [span_cases E l hE] at hov ⊢
  unfold pad_file_size
  by_cases hz : (l + 32) % E = 0
  · simp only [hz, if_true] at hov ⊢
    have hs : i32 (l + 32) = l + 32 := i32_of_range _ (by omega) (by omega)
    have hmi : i32 ((l + 32) % E) = 0 := by rw [hz]; rfl
    simp only [hs, ht, hmi, ne_eq, not_true_eq_false, if_false]
    omega
  · simp only [hz, if_false] at hov ⊢
    rw [mul_add, mul_one] at hov ⊢
    have hs : i32 (l + 32) = l + 32 := i32_of_range _ (by omega) (by omega)
    have hmi : i32 ((l + 32) % E) = (l + 32) % E := i32_of_range _ (by omega) (by omega)
    simp only [hs, ht, hmi, ne_eq, hz, not_false_eq_true, if_true]
    rw [i32_of_range (l + 32 - (l + 32) % E) (by omega) (by omega),
      i32_of_range _ (by omega) (by omega)]
    omega

/-- The padded size lies between the unpadded size and one erase unit above it. -/
theorem span_bounds (E l : Int) (hE : 0 < E) :
    l + 32 ≤ E * ((l + 32 + E - 1) / E) ∧ E * ((l + 32 + E - 1) / E) < l + 32 + E := by
  have hm0 : 0 ≤ (l + 32 + E - 1) % E := Int.emod_nonneg _ (by omega)
  have hm1 : (l + 32 + E - 1) % E < E := Int.emod_lt_of_pos _ hE
  have hd : E * ((l + 32 + E - 1) / E) + (l + 32 + E - 1) % E = l + 32 + E - 1 :=
    Int.ediv_add_emod _ _
  constructor <;> omega

/-- C2. For every erase-unit size `E > 0` and payload length `l > 0` with `l + 32 + E`
inside the range of `int`, `pad_file_size l = E * ceil((32 + l) / E)`: a multiple of `E`, at
least `l + 32`, below `l + 32 + E`. -/
theorem C2_pad_file_size (E l : Int) (hE : 0 < E) (hl : 0 < l) (hov : l + 32 + E ≤ 2147483647) :
    pad_file_size E l = E * ⌈((32 + l : ℚ) / E)⌉ ∧ E ∣ pad_file_size E l ∧
    l + 32 ≤ pad_file_size E l ∧ pad_file_size E l < l + 32 + E := by
  obtain ⟨hlo, hhi⟩ := span_bounds E l hE
  have hp := pad_file_size_eq E l hE (by omega) (by omega)
  have hEq : (0 : ℚ) < E := by exact_mod_cast hE
  refine ⟨?_, ⟨_, hp⟩, by omega, by omega⟩
  rw [hp]
  congr 1
  symm
  rw [Int.ceil_eq_iff]
  constructor
  · rw [lt_div_iff₀ hEq]
    have : (((l + 32 + E - 1) / E : Int) - 1) * E < 32 + l := by
      have : E * ((l + 32 + E - 1) / E) - E < 32 + l := by omega
      linarith [mul_comm E ((l + 32 + E - 1) / E)]
    exact_mod_cast this
  · rw [div_le_iff₀ hEq]
    have : 32 + l ≤ ((l + 32 + E - 1) / E : Int) * E := by
      linarith [mul_comm E ((l + 32 + E - 1) / E)]
    exact_mod_cast this

/-- C2, at a 70000-byte payload on 64 KiB erase units: two units. -/
theorem C2_pad_file_size_witness :
    pad_file_size 65536 70000 = 65536 * ⌈((32 + (70000 : Int) : ℚ) / (65536 : Int))⌉ ∧
    (65536 : Int) ∣ pad_file_size 65536 70000 ∧
    (70000 : Int) + 32 ≤ pad_file_size 65536 70000 ∧
    pad_file_size 65536 70000 < 70000 + 32 + 65536 :=
  C2_pad_file_size 65536 70000 (by decide) (by decide) (by decide)

/-- The length check of the source accepts exactly the lengths from 1 to
`8 * 1024 * 1204 = 9863168`. -/
theorem valid_file_size_iff (length : Nat) (h : length < 4294967296) :
    valid_file_size (i32 length) = 0 ↔ 0 < length ∧ length ≤ 9863168 := by
  unfold valid_file_size i32
  split <;> omega

/-- C3. The length check of the source accepts the length 8388609, one byte above 8 MiB
(and every length up to 9863168), which the bound `0 < length <= 8388608` of the
specification rejects. -/
theorem C3_valid_file_size_above_8MiB :
    valid_file_size (i32 8388609) = 0 ∧ valid_file_size (i32 9863168) = 0 ∧
    ¬ ((8388609 : Nat) ≤ 8 * 1024 * 1024) := by
  decide

/-! ## Chain scanner -/

set_option maxRecDepth 100000

theorem span_pos (E : Int) (len : Nat) (hE : 0 < E) : 1 ≤ span E len := by
  unfold span
  have h := (span_bounds E len hE).1
  by_contra hc
  have : E * ((len + 32 + E - 1) / E) ≤ E * 0 :=
    Int.mul_le_mul_of_nonneg_left (by omega) (by omega)
  omega

theorem chain_end_ge (E : Int) (hE : 0 < E) : ∀ (lens : List Nat) (u : Int), u ≤ chain_end E u lens
  | [], u => le_refl u
  | len :: rest, u => by
    have h1 := span_pos E len hE
    have h2 := chain_end_ge E hE rest (u + span E len)
    simp only [chain_end]
    omega

/-- A unit index is at most its byte offset. -/
theorem le_mul_erasesize (E u : Int) (hE : 0 < E) (hu : 0 ≤ u) : u ≤ u * E := by
  have : u * 1 ≤ u * E := Int.mul_le_mul_of_nonneg_left (by omega) hu
  omega

/-- The number of units the scanner advances over a valid record is its span. -/
theorem advance_eq_span (E : Int) (len : Nat) (hE : 0 < E) (hl : len < 4294967296)
    (hv : valid_file_size (i32 len) = 0) (hov : span E len * E ≤ 2147483647) :
    i32 (Int.tdiv (pad_file_size E (i32 len)) E) = span E len := by
  have hlen := (valid_file_size_iff len hl).1 hv
  have hi : i32 (len : Int) = len := i32_of_range _ (by omega) (by omega)
  have hsp := span_pos E len hE
  have hle := le_mul_erasesize E (span E len) hE (by omega)
  rw [hi, pad_file_size_eq E len hE (by omega) (by unfold span at hov; linarith [mul_comm E ((len + 32 + E - 1) / E)])]
  have hnn : 0 ≤ E * ((len + 32 + E - 1) / E) := by
    have := span_bounds E len hE
    omega
  rw [Int.tdiv_eq_ediv hnn (by omega), Int.mul_ediv_cancel_left _ (by omega : E ≠ 0)]
  exact i32_of_range _ (by unfold span at hsp; omega) (by unfold span at hle hov; omega)

/-- The offsets the scanner computes for a record that lies below the end of a chain that
fits an `int` are exact. -/
theorem chain_step_range (E u sp ce : Int) (hE : 0 < E) (hu : 0 ≤ u) (hsp : 1 ≤ sp)
    (hge : u + sp ≤ ce) (hr : ce * E ≤ 2147483647) :
    i32 (u * E) = u * E ∧ sp * E ≤ 2147483647 ∧ i32 (u + sp) = u + sp := by
  have h1 : (u + sp) * E ≤ ce * E := Int.mul_le_mul_of_nonneg_right hge hE.le
  have h2 : 0 ≤ u * E := Int.mul_nonneg hu hE.le
  have h3 : 0 ≤ sp * E := Int.mul_nonneg (by omega) hE.le
  have h4 := le_mul_erasesize E u hE hu
  have h5 := le_mul_erasesize E sp hE (by omega)
  rw [add_mul] at h1
  exact ⟨i32_of_range _ (by omega) (by omega), by omega, i32_of_range _ (by omega) (by omega)⟩

theorem last_index_shift (s n : Nat) : s + 1 + (n + 1) - 1 = s + (n + 1 + 1) - 1 := by
  omega

theorem u32_succ_u32 (s : Nat) : u32 (u32 s + 1) = u32 (s + 1) := by
  unfold u32; omega

/-- The loop of the scanner runs through a chain of Data records in one round per record
and arrives at the unit behind the chain with the sequence of the last record. -/
theorem next_free_loop_chain (sys : Sys) (d : Mtd) (hE : 0 < d.erasesize) :
    ∀ (lens : List Nat) (u : Int) (s seq fuel : Nat), 0 ≤ u →
      chain_end d.erasesize u lens * d.erasesize ≤ 2147483647 →
      data_chain sys d u s lens → (u = 0 ∨ u32 (seq + 1) = u32 s) →
      next_free_loop sys d (fuel + lens.length) u seq
        = next_free_loop sys d fuel (chain_end d.erasesize u lens)
            (if lens = [] then seq else u32 (s + lens.length - 1))
  | [], u, s, seq, fuel, _, _, _, _ => by simp [chain_end]
  | len :: rest, u, s, seq, fuel, hu, hr, hc, hs => by
    obtain ⟨hh, hl, hv, hrest⟩ := hc
    obtain ⟨h, hrd, hf⟩ := Option.map_eq_some'.1 hh
    simp only [Prod.mk.injEq] at hf
    obtain ⟨hmagic, htype, hseq, hlength⟩ := hf
    have hsp := span_pos d.erasesize len hE
    have hge := chain_end_ge d.erasesize hE rest (u + span d.erasesize len)
    simp only [chain_end] at hr
    obtain ⟨hoff, hspE, hnext⟩ := chain_step_range d.erasesize u _ _ hE hu hsp hge hr
    have hadv := advance_eq_span d.erasesize len hE hl hv hspE
    have hcond : ¬ (u32 (seq + 1) ≠ h.seq ∧ u ≠ 0) := by
      rintro ⟨h1, h2⟩
      rcases hs with h3 | h3
      · exact h2 h3
      · exact h1 (by rw [hseq, h3])
    have hlast : (if rest = [] then h.seq else u32 (s + 1 + rest.length - 1))
        = (if len :: rest = [] then seq else u32 (s + (len :: rest).length - 1)) := by
      cases rest with
      | nil => simp only [if_true, reduceCtorEq, if_false, List.length_cons, List.length_nil]; exact hseq
      | cons a t =>
        simp only [List.length_cons, reduceCtorEq, if_false]
        exact congrArg u32 (last_index_shift s t.length)
    show next_free_loop sys d ((fuel + rest.length) + 1) u seq = _
    rw [next_free_loop, hoff, hrd]
    simp only [hmagic, htype, hlength, hv, ne_eq, not_true_eq_false, if_false, and_self, if_true]
    rw [if_neg hcond, hadv, hnext]
    rw [next_free_loop_chain sys d hE rest (u + span d.erasesize len) (s + 1) h.seq fuel
      (le_trans hu (le_trans (Int.le_add_one (le_refl u)) (Int.add_le_add_left hsp u))) hr hrest
      (Or.inr (by rw [hseq]; exact u32_succ_u32 s))]
    rw [hlast]
    simp only [chain_end]

/-- A header read that succeeds lies on the device. -/
theorem read_hdr_range (sys : Sys) (d : Mtd) (off : Int) (h : file_header)
    (hr : read_hdr sys d off = some h) : 0 ≤ off ∧ off + 32 ≤ d.mtdsize := by
  unfold read_hdr mtd_read_buffer at hr
  split at hr
  · simp at hr
  · next b hb =>
    split at hb
    · simp at hb
    · next hc =>
      simp only [not_or, not_lt] at hc
      obtain ⟨h1, h2, -⟩ := hc
      simp only [Nat.cast_ofNat] at h2
      exact ⟨h1, by linarith⟩

/-- The scanner stops at a unit whose header has no magic tag or is not a Data record. -/
theorem next_free_loop_stop (sys : Sys) (d : Mtd) (fuel : Nat) (u : Int) (seq : Nat)
    (h : file_header) (hoff : i32 (u * d.erasesize) = u * d.erasesize)
    (hr : read_hdr sys d (u * d.erasesize) = some h) (hh : h.magic ≠ OWRT ∨ h.type ≠ DATA) :
    next_free_loop sys d (fuel + 1) u seq = some (u, seq) := by
  rw [next_free_loop, hoff, hr]
  by_cases hm : h.magic = OWRT
  · have ht : h.type ≠ DATA := hh.resolve_left (fun hc => hc hm)
    simp [hm, ht]
  · simp [hm]

/-- The scanner stops at a nonzero unit that holds a valid Data record out of sequence. -/
theorem next_free_loop_gap (sys : Sys) (d : Mtd) (fuel : Nat) (u : Int) (seq : Nat)
    (h : file_header) (hoff : i32 (u * d.erasesize) = u * d.erasesize) (hu : u ≠ 0)
    (hr : read_hdr sys d (u * d.erasesize) = some h) (hm : h.magic = OWRT) (ht : h.type = DATA)
    (hv : valid_file_size (i32 h.length) = 0) (hs : h.seq ≠ u32 (seq + 1)) :
    next_free_loop sys d (fuel + 1) u seq = some (u, seq) := by
  rw [next_free_loop, hoff, hr]
  have hs2 : u32 (seq + 1) ≠ h.seq := fun hc => hs hc.symm
  simp [hm, ht, hv, hs2, hu]

theorem chain_end_pos (E : Int) (hE : 0 < E) (lens : List Nat) (hk : 1 ≤ lens.length) :
    1 ≤ chain_end E 0 lens := by
  cases lens with
  | nil => simp at hk
  | cons len rest =>
    have h1 := span_pos E len hE
    have h2 := chain_end_ge E hE rest (0 + span E len)
    simp only [chain_end]
    omega

/-- C4. For every device that holds `k >= 1` Data records with valid lengths and the
sequences `s, …, s + k - 1` (modulo `2 ^ 32`) back to back from erase unit 0, followed by a
unit whose header has no magic tag or is not a Data record, `snapshot_next_free` returns the
unit right behind the last record and leaves `s + k - 1` as the last sequence. -/
theorem C4_scan_contiguous (sys : Sys) (d : Mtd) (seed s : Nat) (lens : List Nat) (fuel : Nat)
    (hE : 0 < d.erasesize) (hsize : d.mtdsize ≤ 2147483647) (hk : 1 ≤ lens.length)
    (hchain : data_chain sys d 0 s lens)
    (hend : ∃ h, read_hdr sys d (chain_end d.erasesize 0 lens * d.erasesize) = some h ∧
      (h.magic ≠ OWRT ∨ h.type ≠ DATA))
    (hfuel : lens.length < fuel) :
    snapshot_next_free sys d seed fuel
      = some (chain_end d.erasesize 0 lens, u32 (s + lens.length - 1)) := by
  obtain ⟨h, hr, hh⟩ := hend
  obtain ⟨h0, h1⟩ := read_hdr_range sys d _ h hr
  have hce : chain_end d.erasesize 0 lens * d.erasesize ≤ 2147483647 := by linarith
  obtain ⟨f, rfl⟩ : ∃ f, fuel = (f + 1) + lens.length := ⟨fuel - lens.length - 1, by omega⟩
  have hne : lens ≠ [] := by rintro rfl; simp at hk
  unfold snapshot_next_free
  rw [next_free_loop_chain sys d hE lens 0 s seed (f + 1) (le_refl 0) hce hchain (Or.inl rfl),
    if_neg hne]
  exact next_free_loop_stop sys d f _ _ h (i32_of_range _ (by linarith) (by linarith)) hr hh

/-- C4, at a device with the sequences 5 and 6 (one and two units) and an erased unit behind
them: the scan returns unit 3 and the last sequence 6. -/
theorem C4_scan_contiguous_witness :
    snapshot_next_free example_sys example_chain_56 12345 3 = some (3, 6) :=
  C4_scan_contiguous example_sys example_chain_56 12345 5 [3, 40] 3 (by decide) (by decide)
    (by decide) (by decide)
    ⟨⟨0xffffffff, 0xffffffff, 0xffffffff, 0xffffffff, 0xffffffff, 0xffffffff, 0xffffffff,
      0xffffffff⟩, by decide, by decide⟩ (by decide)

/-- C5. For every device whose forward chain starts with `j >= 1` valid Data records back to
back from unit 0 with consecutive sequences, and whose next unit `u` holds a valid Data
record whose sequence is not the previous sequence plus one, `snapshot_next_free` returns
`u` itself, which is not unit 0, and reports the sequence of the record before `u`. -/
theorem C5_scan_discontinuity (sys : Sys) (d : Mtd) (seed s : Nat) (lens : List Nat) (fuel : Nat)
    (hE : 0 < d.erasesize) (hsize : d.mtdsize ≤ 2147483647) (hj : 1 ≤ lens.length)
    (hchain : data_chain sys d 0 s lens)
    (hnext : ∃ h, read_hdr sys d (chain_end d.erasesize 0 lens * d.erasesize) = some h ∧
      h.magic = OWRT ∧ h.type = DATA ∧ valid_file_size (i32 h.length) = 0 ∧
      h.seq ≠ u32 (u32 (s + lens.length - 1) + 1))
    (hfuel : lens.length < fuel) :
    snapshot_next_free sys d seed fuel
      = some (chain_end d.erasesize 0 lens, u32 (s + lens.length - 1)) ∧
    chain_end d.erasesize 0 lens ≠ 0 := by
  obtain ⟨h, hr, hm, ht, hv, hs⟩ := hnext
  obtain ⟨h0, h1⟩ := read_hdr_range sys d _ h hr
  have hce : chain_end d.erasesize 0 lens * d.erasesize ≤ 2147483647 := by linarith
  have hpos := chain_end_pos d.erasesize hE lens hj
  have hnz : chain_end d.erasesize 0 lens ≠ 0 := by omega
  obtain ⟨f, rfl⟩ : ∃ f, fuel = (f + 1) + lens.length := ⟨fuel - lens.length - 1, by omega⟩
  have hne : lens ≠ [] := by rintro rfl; simp at hj
  refine ⟨?_, hnz⟩
  unfold snapshot_next_free
  rw [next_free_loop_chain sys d hE lens 0 s seed (f + 1) (le_refl 0) hce hchain (Or.inl rfl),
    if_neg hne]
  exact next_free_loop_gap sys d f _ _ h (i32_of_range _ (by linarith) (by linarith)) hnz hr hm
    ht hv hs

/-- C5, at a device with the sequences 5, 6 and 9: the scan returns unit 3, where the record
with the sequence 9 starts, and the last sequence 6. -/
theorem C5_scan_discontinuity_witness :
    (read_hdr example_sys example_chain_569 (3 * 64)).map (fun h => h.seq) = some 9 ∧
    snapshot_next_free example_sys example_chain_569 12345 3 = some (3, 6) ∧ (3 : Int) ≠ 0 :=
  ⟨by decide,
   C5_scan_discontinuity example_sys example_chain_569 12345 5 [3, 40] 3 (by decide) (by decide)
    (by decide) (by decide) ⟨⟨OWRT, DATA, 9, 2, 0, 0, 0, 0⟩, by decide, by decide⟩ (by decide)⟩

/-- C6. A header read that fails makes `snapshot_next_free` return 0, the value it also
returns, without any read error, for a device whose unit 0 is free: on a device with the
sequences 5 and 6 and a fault in the next unit, and on an erased device whose unit 0 cannot
be read, the result is unit 0, as on an erased device without faults. -/
theorem C6_scan_read_error_returns_zero :
    read_hdr example_sys example_fault_unit3 (3 * 64) = none ∧
    snapshot_next_free example_sys example_fault_unit3 12345 3 = some (0, 6) ∧
    read_hdr example_sys example_fault_unit0 (0 * 64) = none ∧
    snapshot_next_free example_sys example_fault_unit0 12345 1 = some (0, 12345) ∧
    read_hdr example_sys example_blank (0 * 64) ≠ none ∧
    snapshot_next_free example_sys example_blank 12345 1 = some (0, 12345) := by
  decide

/-- A header read that fails makes the scanner return 0, whatever it has seen before. -/
theorem next_free_loop_read_error (sys : Sys) (d : Mtd) (fuel : Nat) (block : Int) (seq : Nat)
    (hr : read_hdr sys d (i32 (block * d.erasesize)) = none) :
    next_free_loop sys d (fuel + 1) block seq = some (0, seq) := by
  rw [next_free_loop, hr]

/-! ## Sentinel locator -/

/-- The backward scan returns `-1` or a unit from 1 to its start that differs from `next`. -/
theorem sentinel_scan_result (sys : Sys) (d : Mtd) (next : Int) :
    ∀ (n : Nat) (s0 : file_header),
      (sentinel_scan sys d next n s0).1 = -1 ∨
      (1 ≤ (sentinel_scan sys d next n s0).1 ∧ (sentinel_scan sys d next n s0).1 ≤ n ∧
        (sentinel_scan sys d next n s0).1 ≠ next)
  | 0, _ => Or.inl rfl
  | n + 1, s0 => by
    rw [sentinel_scan]
    split
    · exact Or.inl rfl
    · next s hs =>
      split
      · split
        · exact Or.inl rfl
        · next hne =>
          refine Or.inr ⟨?_, ?_, fun hc => hne hc.symm⟩
          · show (1 : Int) ≤ (n : Int) + 1
            omega
          · show (n : Int) + 1 ≤ ((n + 1 : Nat) : Int)
            omega
      · rcases sentinel_scan_result sys d next n s with h | ⟨h1, h2, h3⟩
        · exact Or.inl h
        · refine Or.inr ⟨h1, ?_, h3⟩
          have : ((n : Nat) : Int) ≤ ((n + 1 : Nat) : Int) := by omega
          exact le_trans h2 this

/-- The offset of a unit at or below a start unit whose offset fits an `int` is exact. -/
theorem unit_offset_range (E : Int) (n : Nat) (hE : 0 < E) (hn : ((n : Int) + 1) * E ≤ 2147483647) :
    i32 (((n : Int) + 1) * E) = ((n : Int) + 1) * E ∧ (n : Int) * E ≤ 2147483647 := by
  have h1 : 0 ≤ (n : Int) * E := Int.mul_nonneg (by omega) hE.le
  rw [add_mul] at hn ⊢
  exact ⟨i32_of_range _ (by omega) (by omega), by omega⟩

/-- The backward scan returns `-1` when no unit from 1 to its start holds a Config. -/
theorem sentinel_scan_none (sys : Sys) (d : Mtd) (next : Int) (hE : 0 < d.erasesize) :
    ∀ (n : Nat) (s0 : file_header), (n : Int) * d.erasesize ≤ 2147483647 →
      (∀ i : Int, 1 ≤ i → i ≤ n → ¬ config_accepted_at sys d i) →
      (sentinel_scan sys d next n s0).1 = -1
  | 0, _, _, _ => rfl
  | n + 1, s0, hn, hno => by
    have hn2 : ((n : Int) + 1) * d.erasesize ≤ 2147483647 := by
      have : ((n + 1 : Nat) : Int) = (n : Int) + 1 := by push_cast; rfl
      rw [← this]; exact hn
    obtain ⟨hoff, hn1⟩ := unit_offset_range d.erasesize n hE hn2
    have hlast : ¬ config_accepted_at sys d ((n : Int) + 1) :=
      hno _ (by omega) (by push_cast; omega)
    rw [sentinel_scan, hoff]
    split
    · rfl
    · next s hs =>
      rw [if_neg (fun hc => hlast ⟨s, hs, hc⟩)]
      exact sentinel_scan_none sys d next hE n s hn1
        (fun i h1 h2 => hno i h1 (by push_cast; omega))

/-- The backward scan stops at the greatest unit at or below its start that holds a Config
when no read above that unit fails. -/
theorem sentinel_scan_greatest (sys : Sys) (d : Mtd) (next : Int) (hE : 0 < d.erasesize)
    (i : Int) (hi : 1 ≤ i) (hc : config_accepted_at sys d i) :
    ∀ (n : Nat) (s0 : file_header), (n : Int) * d.erasesize ≤ 2147483647 → i ≤ n →
      (∀ j : Int, i < j → j ≤ n → ¬ config_accepted_at sys d j) →
      (∀ j : Int, i < j → j ≤ n → read_hdr sys d (j * d.erasesize) ≠ none) →
      (sentinel_scan sys d next n s0).1 = if i = next then -1 else i
  | 0, _, _, hin, _, _ => by
    exfalso
    have : i ≤ 0 := by exact_mod_cast hin
    omega
  | n + 1, s0, hn, hin, hno, hrd => by
    have hcast : ((n + 1 : Nat) : Int) = (n : Int) + 1 := by push_cast; rfl
    rw [hcast] at hn hin
    obtain ⟨hoff, hn1⟩ := unit_offset_range d.erasesize n hE hn
    rw [sentinel_scan, hoff]
    by_cases hlast : i = (n : Int) + 1
    · obtain ⟨h, hr, hp⟩ := hc
      rw [← hlast, hr]
      simp only [hp, and_self, if_true]
      by_cases hnx : next = i
      · simp [hnx]
      · have : ¬ i = next := fun hc => hnx hc.symm
        simp [hnx, this]
    · have hlt : i < (n : Int) + 1 := by omega
      have hr := hrd _ hlt (by rw [hcast])
      have hnc := hno _ hlt (by rw [hcast])
      split
      · next hnone => exact absurd hnone hr
      · next s hs =>
        rw [if_neg (fun hc => hnc ⟨s, hs, hc⟩)]
        exact sentinel_scan_greatest sys d next hE i hi hc n s hn1 (by omega)
          (fun j h1 h2 => hno j h1 (by rw [hcast]; omega))
          (fun j h1 h2 => hrd j h1 (by rw [hcast]; omega))

/-- The unit the backward scan starts from is the last unit of the device. -/
theorem top_unit (m E : Int) (hE : 0 < E) (h0 : 0 ≤ m) (hm : m ≤ 2147483647) :
    (((i32 (i32 (Int.tdiv m E) - 1)).toNat : Nat) : Int) * E ≤ 2147483647 ∧
    ∀ i : Int, 1 ≤ i → (i ≤ m / E - 1 ↔ i ≤ ((i32 (i32 (Int.tdiv m E) - 1)).toNat : Nat)) := by
  have hN0 : 0 ≤ m / E := Int.ediv_nonneg h0 hE.le
  have hNE : m / E * E ≤ m := Int.ediv_mul_le m (by omega)
  have hN : m / E ≤ m / E * E := le_mul_erasesize E (m / E) hE hN0
  rw [Int.tdiv_eq_ediv h0 hE.le, i32_of_range (m / E) (by omega) (by omega),
    i32_of_range (m / E - 1) (by omega) (by omega)]
  by_cases hz : m / E = 0
  · rw [hz]
    have hz1 : (((0 : Int) - 1).toNat : Nat) = 0 := rfl
    rw [hz1]
    refine ⟨by simp, fun i hi => ?_⟩
    constructor
    · intro h; omega
    · intro h
      have : i ≤ 0 := by exact_mod_cast h
      omega
  · have hcast : (((m / E - 1).toNat : Nat) : Int) = m / E - 1 := Int.toNat_of_nonneg (by omega)
    rw [hcast]
    refine ⟨?_, fun i _ => Iff.rfl⟩
    rw [sub_mul]
    omega

/-- When the forward scan returns `next` and no header read of the backward scan fails, with
`N = mtdsize / erasesize`: `config_find` returns the greatest unit `i` in `[1, N - 1]` whose
header passes the test of its loop (the magic tag, the kind Config and a length that
`valid_file_size` accepts) when `i ≠ next`, and `-1` when that unit is `next` or when there
is no such unit; it never returns 0, and what it returns is `-1` or a unit of `[1, N - 1]`
other than `next`. -/
theorem config_find_greatest_accepted (sys : Sys) (d : Mtd) (seed fuel : Nat) (conf0 sentinel0 : file_header)
    (next : Int) (sq : Nat) (hE : 0 < d.erasesize) (h0 : 0 ≤ d.mtdsize)
    (hsize : d.mtdsize ≤ 2147483647)
    (hscan : snapshot_next_free sys d seed fuel = some (next, sq))
    (hread : ∀ i : Int, 1 ≤ i → i ≤ d.mtdsize / d.erasesize - 1 →
      read_hdr sys d (i * d.erasesize) ≠ none) :
    ∃ ret, (config_find sys d seed fuel conf0 sentinel0).map (fun r => r.1) = some ret ∧
      (∀ i : Int, 1 ≤ i → i ≤ d.mtdsize / d.erasesize - 1 → config_accepted_at sys d i →
        (∀ j : Int, i < j → j ≤ d.mtdsize / d.erasesize - 1 → ¬ config_accepted_at sys d j) →
        ret = if i = next then -1 else i) ∧
      ((∀ i : Int, 1 ≤ i → i ≤ d.mtdsize / d.erasesize - 1 → ¬ config_accepted_at sys d i) → ret = -1) ∧
      ret ≠ 0 ∧
      (ret = -1 ∨ (1 ≤ ret ∧ ret ≤ d.mtdsize / d.erasesize - 1 ∧ ret ≠ next)) := by
  obtain ⟨hn, htop⟩ := top_unit d.mtdsize d.erasesize hE h0 hsize
  refine ⟨(sentinel_scan sys d next (i32 (i32 (Int.tdiv d.mtdsize d.erasesize) - 1)).toNat
    { sentinel0 with magic := 0 }).1, by simp only [config_find, hscan, Option.map_some'],
    ?_, ?_, ?_, ?_⟩
  · intro i hi hiN hc hno
    exact sentinel_scan_greatest sys d next hE i hi hc _ _ hn ((htop i hi).1 hiN)
      (fun j h1 h2 => hno j h1 ((htop j (by omega)).2 h2))
      (fun j h1 h2 => hread j (by omega) ((htop j (by omega)).2 h2))
  · intro hno
    exact sentinel_scan_none sys d next hE _ _ hn (fun i h1 h2 => hno i h1 ((htop i h1).2 h2))
  · rcases sentinel_scan_result sys d next (i32 (i32 (Int.tdiv d.mtdsize d.erasesize) - 1)).toNat
      { sentinel0 with magic := 0 } with h | ⟨h1, -, -⟩
    · rw [h]; decide
    · intro hc; rw [hc] at h1; exact absurd h1 (by decide)
  · rcases sentinel_scan_result sys d next (i32 (i32 (Int.tdiv d.mtdsize d.erasesize) - 1)).toNat
      { sentinel0 with magic := 0 } with h | ⟨h1, h2, h3⟩
    · exact Or.inl h
    · exact Or.inr ⟨h1, (htop _ h1).2 h2, h3⟩

/-- On a device of six units with the forward free unit 1 and Config records at the units 2
and 4, `config_find` returns 4. -/
theorem config_find_greatest_accepted_example :
    snapshot_next_free example_sys example_two_configs 1 2 = some (1, 5) ∧
    (config_find example_sys example_two_configs 1 2 ⟨0, 0, 0, 0, 0, 0, 0, 0⟩
      ⟨0, 0, 0, 0, 0, 0, 0, 0⟩).map (fun r => r.1) = some 4 := by
  have hread : ∀ i : Int, 1 ≤ i → i ≤ example_two_configs.mtdsize / example_two_configs.erasesize - 1 →
      read_hdr example_sys example_two_configs (i * example_two_configs.erasesize) ≠ none := by
    intro i h1 h2
    have h3 : i ≤ 5 := h2
    interval_cases i <;> decide
  obtain ⟨ret, hret, hg, -, -, -⟩ := config_find_greatest_accepted example_sys example_two_configs 1 2
    ⟨0, 0, 0, 0, 0, 0, 0, 0⟩ ⟨0, 0, 0, 0, 0, 0, 0, 0⟩ 1 5 (by decide) (by decide) (by decide)
    (by decide) hread
  refine ⟨by decide, ?_⟩
  rw [hret, hg 4 (by decide) (by decide) ⟨⟨OWRT, CONF, 5, 2, 0, 0, 0, 0⟩, by decide, by decide⟩ ?_]
  · rfl
  · intro j h1 h2
    have h3 : j ≤ 5 := h2
    have h4 : j = 5 := by omega
    subst h4
    rintro ⟨h, hr, hm, -⟩
    have : read_hdr example_sys example_two_configs (5 * example_two_configs.erasesize)
        = some ⟨0xffffffff, 0xffffffff, 0xffffffff, 0xffffffff, 0xffffffff, 0xffffffff,
            0xffffffff, 0xffffffff⟩ := by decide
    rw [this] at hr
    cases hr
    exact absurd hm (by decide)

/-! ## Record writer -/

/-- The writer fails before it touches the device when the source does not exist. -/
theorem snapshot_write_file_no_source (sys : Sys) (d : Mtd) (fs : Fs) (block : Int)
    (file : String) (seq type : Nat) (hfile : fs file = none) :
    snapshot_write_file sys d fs block file seq type = (-1, d) := by
  simp only [snapshot_write_file, hfile]

/-- The copy loop of the reader ends with `hdr.length = 0` whenever it ends without an
error. -/
theorem read_payload_length (d : Mtd) :
    ∀ (fuel length : Nat) (pos : Int) (acc : List Nat), length ≤ fuel →
      (read_payload d fuel length pos acc).1 = 0 → (read_payload d fuel length pos acc).2.1 = 0
  | 0, length, pos, acc, hf, _ => by
    have : length = 0 := by omega
    subst this
    rfl
  | fuel + 1, length, pos, acc, hf, hr => by
    rw [read_payload] at hr ⊢
    by_cases hl : length > 0
    · simp only [hl, if_true] at hr ⊢
      cases hm : mtd_read_buffer d pos (if length < 256 then length else 256) with
      | none => rw [hm] at hr; simp at hr
      | some buffer =>
        rw [hm] at hr
        simp only at hr ⊢
        exact read_payload_length d fuel _ _ _ (by split <;> omega) hr
    · simp only [hl, if_false]
      omega

/-- Whatever the record, `snapshot_read_file` returns `-1`, `0`, or the start unit advanced
by the padded size of an empty payload: the value never depends on the stored length. -/
theorem snapshot_read_file_value (sys : Sys) (d : Mtd) (fs : Fs) (block : Int) (file : String)
    (type : Nat) :
    (snapshot_read_file sys d fs block file type).1 = -1 ∨
    (snapshot_read_file sys d fs block file type).1 = 0 ∨
    (snapshot_read_file sys d fs block file type).1
      = i32 (block + i32 (Int.tdiv (pad_file_size d.erasesize (i32 (0 : Nat))) d.erasesize)) := by
  unfold snapshot_read_file
  split
  · exact Or.inl rfl
  · next hdr hh =>
    split
    · exact Or.inl rfl
    · split
      · exact Or.inl rfl
      · split
        · exact Or.inl rfl
        · simp only
          split
          · exact Or.inl rfl
          · next hr =>
            split
            · exact Or.inr (Or.inl rfl)
            · refine Or.inr (Or.inr ?_)
              rw [read_payload_length d hdr.length hdr.length _ _ (le_refl _)
                (by simpa using hr)]

/-- A device read succeeds exactly on a range that lies on the device and touches no bad
offset, and then yields the bytes of the range. -/
theorem mtd_read_buffer_eq_some (d : Mtd) (off : Int) (len : Nat) (p : List Nat) :
    mtd_read_buffer d off len = some p ↔
      (0 ≤ off ∧ off + len ≤ d.mtdsize ∧ ∀ i : Nat, i < len → d.bad (off + i) = false) ∧
      p = (List.range len).map (fun (i : Nat) => d.flash (off + (i : Int))) := by
  unfold mtd_read_buffer
  split
  · next hc =>
    simp only [reduceCtorEq, false_iff, not_and]
    rintro ⟨h1, h2, h3⟩
    rcases hc with hc | hc | hc
    · omega
    · omega
    · obtain ⟨i, hi, hb⟩ := List.any_eq_true.1 hc
      rw [h3 i (List.mem_range.1 hi)] at hb
      exact absurd hb (by decide)
  · next hc =>
    simp only [not_or, not_lt, Bool.not_eq_true, List.any_eq_false, List.mem_range] at hc
    obtain ⟨h1, h2, h3⟩ := hc
    simp only [Option.some.injEq]
    constructor
    · intro h
      exact ⟨⟨h1, h2, fun i hi => by simpa using h3 i hi⟩, h.symm⟩
    · intro h
      exact h.2.symm

/-- A device read that succeeds splits into the reads of its two parts. -/
theorem mtd_read_buffer_split (d : Mtd) (pos : Int) (a b : Nat) (p : List Nat)
    (h : mtd_read_buffer d pos (a + b) = some p) :
    mtd_read_buffer d pos a = some (p.take a) ∧
    mtd_read_buffer d (pos + a) b = some (p.drop a) := by
  obtain ⟨⟨h1, h2, h3⟩, hp⟩ := (mtd_read_buffer_eq_some d pos (a + b) p).1 h
  have hsplit : p = (List.range a).map (fun (i : Nat) => d.flash (pos + (i : Int))) ++
      (List.range b).map (fun (i : Nat) => d.flash (pos + a + (i : Int))) := by
    rw [hp, List.range_add, List.map_append, List.map_map]
    congr 1
    apply List.map_congr_left
    intro i _
    simp only [Function.comp_apply, Nat.cast_add, add_assoc]
  have hlen : ((List.range a).map (fun (i : Nat) => d.flash (pos + (i : Int)))).length = a := by
    simp
  push_cast at h2
  constructor
  · rw [mtd_read_buffer_eq_some]
    refine ⟨⟨h1, by omega, fun i hi => h3 i (by omega)⟩, ?_⟩
    rw [hsplit, List.take_left' hlen]
  · rw [mtd_read_buffer_eq_some]
    refine ⟨⟨by omega, by omega, fun i hi => ?_⟩, ?_⟩
    · have := h3 (a + i) (by omega)
      rw [← this]
      congr 1
      push_cast
      ring
    · rw [hsplit, List.drop_left' hlen]

/-- The copy loop of the reader hands over the payload when the device yields it. -/
theorem read_payload_ok (d : Mtd) :
    ∀ (fuel length : Nat) (pos : Int) (acc payload : List Nat), length ≤ fuel →
      mtd_read_buffer d pos length = some payload →
      read_payload d fuel length pos acc = (0, 0, acc ++ payload)
  | 0, length, pos, acc, payload, hf, hp => by
    have hl : length = 0 := by omega
    subst hl
    obtain ⟨-, hp2⟩ := (mtd_read_buffer_eq_some d pos 0 payload).1 hp
    simp [read_payload, hp2]
  | fuel + 1, length, pos, acc, payload, hf, hp => by
    rw [read_payload]
    by_cases hl : length > 0
    · simp only [hl, if_true]
      have hsum : length = (if length < 256 then length else 256)
          + (length - (if length < 256 then length else 256)) := by split <;> omega
      rw [hsum] at hp
      obtain ⟨h1, h2⟩ := mtd_read_buffer_split d pos _ _ payload hp
      rw [h1]
      simp only
      rw [read_payload_ok d fuel _ _ _ _ (by split <;> omega) h2, List.append_assoc,
        List.take_append_drop]
    · have hl0 : length = 0 := by omega
      subst hl0
      obtain ⟨-, hp2⟩ := (mtd_read_buffer_eq_some d pos 0 payload).1 hp
      simp [hp2]

/-- With a destination that is absent or no longer than the payload, a record whose header
passes the checks and whose payload on the device does not hash to the digest of the header
makes `snapshot_read_file` return 0 and leave no destination. -/
theorem snapshot_read_file_hash_mismatch (sys : Sys) (d : Mtd) (fs : Fs) (block : Int)
    (file : String) (type : Nat) (h : file_header) (payload : List Nat)
    (hr : read_hdr sys d (i32 (block * d.erasesize)) = some h) (hm : h.magic = OWRT)
    (ht : h.type = type) (hv : valid_file_size (i32 h.length) = 0)
    (hp : mtd_read_buffer d (i32 (block * d.erasesize) + 32) h.length = some payload)
    (hd : sys.md5 payload ≠ (h.md5_0, h.md5_1, h.md5_2, h.md5_3))
    (hfresh : ((fs file).getD []).length ≤ h.length) :
    (snapshot_read_file sys d fs block file type).1 = 0 ∧
    (snapshot_read_file sys d fs block file type).2 file = none := by
  have hlen : payload.length = h.length := by
    rw [((mtd_read_buffer_eq_some d _ _ payload).1 hp).2]; simp
  have hdrop : List.drop payload.length ((fs file).getD []) = [] :=
    List.drop_of_length_le (by omega)
  simp only [snapshot_read_file, hr, hm, ht, hv, ne_eq, not_true_eq_false, if_false,
    read_payload_ok d h.length h.length _ [] payload (le_refl _) hp, List.nil_append, hdrop,
    List.append_nil, verify_file_hash, Fs.set, if_true, hd, not_false_eq_true]
  rw [if_pos (by decide)]
  exact ⟨rfl, by simp [Fs.set]⟩

/-- The advance computed from a zero length is one erase unit on every device whose erase
units hold a header. -/
theorem advance_of_zero_length (E block : Int) (hE : 32 ≤ E) (hE1 : E ≤ 1073741824)
    (hb0 : -2147483648 ≤ block) (hb1 : block < 2147483647) :
    i32 (block + i32 (Int.tdiv (pad_file_size E (i32 (0 : Nat))) E)) = block + 1 := by
  have h0 : i32 ((0 : Nat) : Int) = 0 := rfl
  have hs : ((0 : Int) + 32 + E - 1) / E = 1 := by
    have h1 : (0 : Int) + 32 + E - 1 = 31 + E * 1 := by omega
    rw [h1, Int.add_mul_ediv_left _ _ (by omega : E ≠ 0), Int.ediv_eq_zero_of_lt (by omega) (by omega)]
    rfl
  rw [h0, pad_file_size_eq E 0 (by omega) (le_refl 0) (by rw [hs]; omega), hs, mul_one,
    Int.tdiv_eq_ediv (by omega) (by omega), Int.ediv_self (by omega : E ≠ 0),
    i32_of_range 1 (by omega) (by omega)]
  exact i32_of_range _ (by omega) (by omega)

/-- C9. On the record of 100 payload bytes that `snapshot_write_file` stored at unit 0 of a
device with 64-byte erase units, `snapshot_read_file` succeeds (the payload is copied and its
digest verified) and returns 1, while the unit behind the span of the record is
`0 + pad_file_size 100 / 64 = 3`: the loop has counted `hdr.length` down to 0 before the
return value is computed from it. -/
theorem C9_read_returns_header_span_only :
    (read_hdr example_sys example_written (0 * 64)).map (fun h => (h.magic, h.type, h.length))
      = some (OWRT, DATA, 100) ∧
    (snapshot_read_file example_sys example_written (fun _ => none) 0
      "/tmp/snapshot/block0.tar.gz" DATA).1 = 1 ∧
    (snapshot_read_file example_sys example_written (fun _ => none) 0
      "/tmp/snapshot/block0.tar.gz" DATA).2 "/tmp/snapshot/block0.tar.gz"
      = some (List.replicate 100 7) ∧
    (0 : Int) + pad_file_size 64 100 / 64 = 3 := by
  decide

/-- C10. On a record with the magic tag, the kind Data and the length 2 whose payload `1, 2`
does not hash to the digest in its header, `snapshot_read_file` returns 1, a success, and
leaves the destination in place when the destination held the three bytes `9, 9, 3` before:
the file is opened without truncation, so the digest is taken over the payload followed by
the old third byte, and that is the digest of the header. With the destination absent
before, the same record gives 0 and no file. -/
theorem C10_stale_destination_defeats_hash_check :
    (read_hdr example_sys example_digest_of_longer (0 * 64)).map
        (fun h => (h.magic, h.type, h.length)) = some (OWRT, DATA, 2) ∧
    (read_hdr example_sys example_digest_of_longer (0 * 64)).map
        (fun h => (h.md5_0, h.md5_1, h.md5_2, h.md5_3)) = some (example_md5 [1, 2, 3]) ∧
    mtd_read_buffer example_digest_of_longer 32 2 = some [1, 2] ∧
    example_md5 [1, 2] ≠ example_md5 [1, 2, 3] ∧
    (snapshot_read_file example_sys example_digest_of_longer example_stale_fs 0
      "/tmp/snapshot/block0.tar.gz" DATA).1 = 1 ∧
    (snapshot_read_file example_sys example_digest_of_longer example_stale_fs 0
      "/tmp/snapshot/block0.tar.gz" DATA).2 "/tmp/snapshot/block0.tar.gz" = some [1, 2, 3] ∧
    (snapshot_read_file example_sys example_digest_of_longer (fun _ => none) 0
      "/tmp/snapshot/block0.tar.gz" DATA).1 = 0 ∧
    (snapshot_read_file example_sys example_digest_of_longer (fun _ => none) 0
      "/tmp/snapshot/block0.tar.gz" DATA).2 "/tmp/snapshot/block0.tar.gz" = none :=
  ⟨by decide, by decide, by decide, by decide, by decide, by decide, by decide, by decide⟩

/-! ## Reader after writer -/

/-- C11. On an erased device of five 64-byte units, `snapshot_write_file` stores a source of
100 bytes at unit 0 and returns 0, and `snapshot_read_file` of that record into a
destination that already holds 101 bytes returns 0, the digest mismatch, and removes the
destination: the file is opened without truncation, so the digest is taken over the 100
bytes of the source followed by the last old byte. The round trip neither succeeds nor
leaves the bytes of the source. -/
theorem C11_roundtrip_fails_on_longer_destination :
    (snapshot_write_file example_sys (example_mtd (List.replicate 320 255)) example_long_stale_fs 0
      "/tmp/snapshot.tar.gz" 7 DATA).1 = 0 ∧
    (snapshot_read_file example_sys
      (snapshot_write_file example_sys (example_mtd (List.replicate 320 255)) example_long_stale_fs 0
        "/tmp/snapshot.tar.gz" 7 DATA).2
      example_long_stale_fs 0 "/tmp/snapshot/block0.tar.gz" DATA).1 = 0 ∧
    (snapshot_read_file example_sys
      (snapshot_write_file example_sys (example_mtd (List.replicate 320 255)) example_long_stale_fs 0
        "/tmp/snapshot.tar.gz" 7 DATA).2
      example_long_stale_fs 0 "/tmp/snapshot/block0.tar.gz" DATA).2 "/tmp/snapshot/block0.tar.gz"
      = none :=
  ⟨by decide, by decide, by decide⟩

/-! ## Reconciler: evaluations -/

/-- C15. On a device whose forward free unit is 1, the forward candidate that `config_find`
hands back is the header decoded at byte offset 1, not the header of unit 1 at byte offset
`1 * erasesize = 64`: the call passes `next` where every other read passes
`block * erasesize`. -/
theorem C15_conf_read_at_byte_offset_next :
    snapshot_next_free example_sys example_forward_8_sentinel_7 7 3 = some (1, 8) ∧
    (config_find example_sys example_forward_8_sentinel_7 7 3 example_hdr0 example_hdr0).map
        (fun r => r.2.1) = read_hdr example_sys example_forward_8_sentinel_7 1 ∧
    (config_find example_sys example_forward_8_sentinel_7 7 3 example_hdr0 example_hdr0).map
        (fun r => r.2.1) ≠ read_hdr example_sys example_forward_8_sentinel_7 (1 * 64) ∧
    (read_hdr example_sys example_forward_8_sentinel_7 (1 * 64)).map
        (fun h => (is_config h, h.seq)) = some (true, 8) ∧
    (config_find example_sys example_forward_8_sentinel_7 7 3 example_hdr0 example_hdr0).map
        (fun r => is_config r.2.1) = some false :=
  ⟨by decide, by decide, by decide, by decide, by decide⟩

/-- C20. On a device whose only Config record sits at the forward free unit 1, `config_find`
returns `-1` for the collision and leaves a sentinel header that satisfies `is_config`; its
sequence 9 is not the sequence 5 of the scan, and `snapshot_sync` issues
`mtd_erase(fd, -1, 1)`. -/
theorem C20_collision_leaves_config_sentinel :
    (config_find example_sys example_collision 7 3 example_hdr0 example_hdr0).map
        (fun r => (r.1, is_config r.2.2, r.2.2.seq)) = some (-1, true, 9) ∧
    (snapshot_sync example_sys example_collision (fun _ => none) example_rnd 3 example_hdr0
        example_hdr0).map (fun r => r.1.log) = some [MtdOp.erase (-1) 1] :=
  ⟨by decide, by decide⟩

/-- C12. On a device with a Data record of sequence 5, the forward Config copy of sequence
5 at the forward free unit 1, and Config records of sequence 5 at unit 3 and of sequence 9
at unit 5, all with payloads that match their digests, `snapshot_sync` with no fault and no
staging file erases unit 5 and changes nothing else: the forward candidate was read at byte
offset 1 and not taken for a Config. Afterwards the forward scan returns unit 1, the
backward scan finds unit 3, both records are read back and verified, both carry the sequence
5, and their digests differ. -/
theorem C12_sync_leaves_divergent_copies :
    (snapshot_sync example_sys example_two_sentinels (fun _ => none) example_rnd 3 example_hdr0
        example_hdr0).map (fun r => r.1.log) = some [MtdOp.erase 5 1] ∧
    (snapshot_sync example_sys example_two_sentinels (fun _ => none) example_rnd 3 example_hdr0
        example_hdr0).map (fun r => snapshot_next_free example_sys r.1 7 3) = some (some (1, 5)) ∧
    (snapshot_sync example_sys example_two_sentinels (fun _ => none) example_rnd 3 example_hdr0
        example_hdr0).map (fun r => (read_hdr example_sys r.1 (1 * 64)).map
          (fun h => (is_config h, h.seq, h.md5_0, h.md5_1)))
      = some (some (true, 5, 2, 8)) ∧
    (snapshot_sync example_sys example_two_sentinels (fun _ => none) example_rnd 3 example_hdr0
        example_hdr0).map (fun r => (config_find example_sys r.1 7 3 example_hdr0 example_hdr0).map
          (fun c => (c.1, is_config c.2.2, c.2.2.seq, c.2.2.md5_0, c.2.2.md5_1)))
      = some (some (3, true, 5, 3, 18)) ∧
    (snapshot_sync example_sys example_two_sentinels (fun _ => none) example_rnd 3 example_hdr0
        example_hdr0).map (fun r =>
          ((snapshot_read_file example_sys r.1 r.2 1 "/tmp/config.tar.gz" CONF).1,
           (snapshot_read_file example_sys r.1 r.2 3 "/tmp/config.tar.gz" CONF).1))
      = some (2, 4) :=
  ⟨by decide, by decide, by decide, by decide, by decide⟩

/-- C13. On a device with a Data record of sequence 8, the forward Config copy of sequence 8
at the forward free unit 1 and the sentinel Config copy of sequence 7 at unit 3,
`snapshot_sync` erases the sentinel and writes nothing: the forward candidate was read at
byte offset 1 and not taken for a Config. Afterwards unit 3 holds no record and the backward
scan finds no sentinel, where the sentinel should carry the sequence 8 and the digest of the
forward copy. -/
theorem C13_sync_drops_sentinel_instead_of_rewriting :
    (read_hdr example_sys example_forward_8_sentinel_7 (1 * 64)).map
        (fun h => (is_config h, h.seq)) = some (true, 8) ∧
    (read_hdr example_sys example_forward_8_sentinel_7 (3 * 64)).map
        (fun h => (is_config h, h.seq)) = some (true, 7) ∧
    (snapshot_sync example_sys example_forward_8_sentinel_7 (fun _ => none) example_rnd 3
        example_hdr0 example_hdr0).map (fun r => r.1.log) = some [MtdOp.erase 3 1] ∧
    (snapshot_sync example_sys example_forward_8_sentinel_7 (fun _ => none) example_rnd 3
        example_hdr0 example_hdr0).map (fun r => (read_hdr example_sys r.1 (3 * 64)).map
          (fun h => (h.magic, h.seq))) = some (some (0xffffffff, 0xffffffff)) ∧
    (snapshot_sync example_sys example_forward_8_sentinel_7 (fun _ => none) example_rnd 3
        example_hdr0 example_hdr0).map (fun r =>
          (config_find example_sys r.1 7 3 example_hdr0 example_hdr0).map (fun c => c.1))
      = some (some (-1)) :=
  ⟨by decide, by decide, by decide, by decide, by decide⟩

/-- C14. On a device of three units with a Data record of sequence 7 and the same
configuration with the sequence 7 as the forward copy at the forward free unit 1 and as the
sentinel copy at unit 2, `snapshot_sync` does not find the copies in sync: the forward
candidate was read at byte offset 1 and not taken for a Config, so the sentinel is written to
the forward chain again, and the erase of the guard unit behind the forward copy erases the
sentinel. Afterwards unit 2 holds no record. -/
theorem C14_sync_erases_adjacent_sentinel :
    snapshot_next_free example_sys example_consistent 7 3 = some (1, 7) ∧
    (read_hdr example_sys example_consistent (1 * 64)).map
        (fun h => (is_config h, h.seq, h.md5_0, h.md5_1)) = some (true, 7, 2, 8) ∧
    (read_hdr example_sys example_consistent (2 * 64)).map
        (fun h => (is_config h, h.seq, h.md5_0, h.md5_1)) = some (true, 7, 2, 8) ∧
    (snapshot_sync example_sys example_consistent (fun _ => none) example_rnd 3 example_hdr0
        example_hdr0).map (fun r => r.1.log)
      = some [MtdOp.erase 1 1, MtdOp.erase 2 1, MtdOp.write 64 32, MtdOp.write 96 2] ∧
    (snapshot_sync example_sys example_consistent (fun _ => none) example_rnd 3 example_hdr0
        example_hdr0).map (fun r => (read_hdr example_sys r.1 (2 * 64)).map
          (fun h => (h.magic, h.seq))) = some (some (0xffffffff, 0xffffffff)) :=
  ⟨by decide, by decide, by decide, by decide, by decide⟩

/-- The scan never returns from a unit whose header has the magic tag and the kind Data but a
length that fails the length check: the unit is read again in every round. -/
theorem next_free_loop_spins (sys : Sys) (d : Mtd) (block : Int) (hdr : file_header)
    (hr : read_hdr sys d (i32 (block * d.erasesize)) = some hdr) (hm : hdr.magic = OWRT)
    (ht : hdr.type = DATA) (hv : valid_file_size (i32 hdr.length) ≠ 0) :
    ∀ (fuel seq : Nat), next_free_loop sys d fuel block seq = none
  | 0, _ => rfl
  | fuel + 1, seq => by
    rw [next_free_loop, hr]
    simp only [hm, ht, hv, ne_eq, not_true_eq_false, if_false, and_false, if_true]
    exact next_free_loop_spins sys d block hdr hr hm ht hv fuel seq

/-- C18. On a device whose unit 0 has the magic tag, the kind Data and the length 0,
`snapshot_next_free` does not return within any number of rounds, whatever `rand()` gave:
the loop reads unit 0 again and again, since the unit index only advances for a length that
passes the length check while the loop goes on for every Data header. -/
theorem C18_scan_spins_on_bad_length (seed fuel : Nat) :
    snapshot_next_free example_sys example_zero_length seed fuel = none :=
  next_free_loop_spins example_sys example_zero_length 0 ⟨OWRT, DATA, 5, 0, 0, 0, 0, 0⟩
    (by decide) (by decide) (by decide) (by decide) fuel seed

/-! ## Erase calls of the record writer -/

/-- The number of units of a record as the machine computes it is its span, when the padded
size fits an `int`. -/
theorem units_eq_span (E : Int) (n : Nat) (hE : 0 < E) (hov : E * span E n ≤ 2147483647) :
    i32 (Int.tdiv (pad_file_size E (i32 n)) E) = span E n := by
  obtain ⟨h1, h2⟩ := span_bounds E n hE
  have hsp := span_pos E n hE
  have hle := le_mul_erasesize E (span E n) hE (by omega)
  unfold span at hov hsp hle ⊢
  have hi : i32 (n : Int) = n := i32_of_range _ (by omega) (by omega)
  rw [hi, pad_file_size_eq E n hE (by omega) hov,
    Int.tdiv_eq_ediv (by omega) (by omega), Int.mul_ediv_cancel_left _ (by omega : E ≠ 0)]
  exact i32_of_range _ (by omega) (by linarith [mul_comm E ((n + 32 + E - 1) / E)])

theorem be32_to_cpu_load32 (host : ByteOrder) (w : Nat) (hw : w < 4294967296) :
    be32_to_cpu host
      (load32 host (w / 16777216 % 256) (w / 65536 % 256) (w / 256 % 256) (w % 256)) = w := by
  cases host
  · have hv : load32 ByteOrder.little (w / 16777216 % 256) (w / 65536 % 256) (w / 256 % 256)
        (w % 256) = bswap32 w := by
      simp only [load32, bswap32]; omega
    rw [hv]
    exact bswap32_bswap32 w hw
  · simp only [be32_to_cpu, load32]
    omega

/-- Decoding the big-endian image of a header of 32-bit words gives the header, on either
host. -/
theorem decode_hdr_image (host : ByteOrder) (h : file_header) (hw : h.wf) :
    be32_to_hdr host (hdr_of_image host (hdr_image ByteOrder.big h)) = h := by
  obtain ⟨h0, h1, h2, h3, h4, h5, h6, h7⟩ := hw
  cases h with
  | mk m t s l a b c e =>
    have hred : be32_to_hdr host (hdr_of_image host (hdr_image ByteOrder.big ⟨m, t, s, l, a, b, c, e⟩))
        = ⟨be32_to_cpu host (load32 host (m / 16777216 % 256) (m / 65536 % 256) (m / 256 % 256) (m % 256)),
           be32_to_cpu host (load32 host (t / 16777216 % 256) (t / 65536 % 256) (t / 256 % 256) (t % 256)),
           be32_to_cpu host (load32 host (s / 16777216 % 256) (s / 65536 % 256) (s / 256 % 256) (s % 256)),
           be32_to_cpu host (load32 host (l / 16777216 % 256) (l / 65536 % 256) (l / 256 % 256) (l % 256)),
           be32_to_cpu host (load32 host (a / 16777216 % 256) (a / 65536 % 256) (a / 256 % 256) (a % 256)),
           be32_to_cpu host (load32 host (b / 16777216 % 256) (b / 65536 % 256) (b / 256 % 256) (b % 256)),
           be32_to_cpu host (load32 host (c / 16777216 % 256) (c / 65536 % 256) (c / 256 % 256) (c % 256)),
           be32_to_cpu host (load32 host (e / 16777216 % 256) (e / 65536 % 256) (e / 256 % 256) (e % 256))⟩ :=
      rfl
    rw [hred, be32_to_cpu_load32 host m h0, be32_to_cpu_load32 host t h1,
      be32_to_cpu_load32 host s h2, be32_to_cpu_load32 host l h3, be32_to_cpu_load32 host a h4,
      be32_to_cpu_load32 host b h5, be32_to_cpu_load32 host c h6, be32_to_cpu_load32 host e h7]

/-- The header a host sees depends on the first 32 bytes of the buffer only. -/
theorem hdr_of_image_congr (host : ByteOrder) (b b2 : List Nat)
    (h : ∀ i : Nat, i < 32 → b.getD i 0 = b2.getD i 0) :
    hdr_of_image host b = hdr_of_image host b2 := by
  unfold hdr_of_image
  simp only [h 0 (by decide), h 1 (by decide), h 2 (by decide), h 3 (by decide), h 4 (by decide),
    h 5 (by decide), h 6 (by decide), h 7 (by decide), h 8 (by decide), h 9 (by decide),
    h 10 (by decide), h 11 (by decide), h 12 (by decide), h 13 (by decide), h 14 (by decide),
    h 15 (by decide), h 16 (by decide), h 17 (by decide), h 18 (by decide), h 19 (by decide),
    h 20 (by decide), h 21 (by decide), h 22 (by decide), h 23 (by decide), h 24 (by decide),
    h 25 (by decide), h 26 (by decide), h 27 (by decide), h 28 (by decide), h 29 (by decide),
    h 30 (by decide), h 31 (by decide), Nat.reduceMul, Nat.reduceAdd]

/-- An entry of the bytes a device read yields. -/
theorem getD_map_range (f : Nat → Nat) (n i : Nat) (hi : i < n) :
    ((List.range n).map f).getD i 0 = f i := by
  rw [List.getD_eq_getElem _ _ (by simpa using hi)]
  simp

/-- The bytes of a list, read entry by entry. -/
theorem map_range_getD (l : List Nat) : (List.range l.length).map (fun i => l.getD i 0) = l := by
  apply List.ext_getElem
  · simp
  · intro i h1 h2
    simp only [List.getElem_map, List.getElem_range]
    exact List.getD_eq_getElem _ _ h2

/-- A fault-free device that holds the big-endian image of a header at `off` hands that
header to the program. -/
theorem read_hdr_of_bytes (sys : Sys) (d : Mtd) (off : Int) (h : file_header)
    (hgood : d.fault_free) (h0 : 0 ≤ off) (h1 : off + 32 ≤ d.mtdsize)
    (hb : ∀ i : Nat, i < 32 → d.flash (off + (i : Int)) = (hdr_image ByteOrder.big h).getD i 0)
    (hw : h.wf) : read_hdr sys d off = some h := by
  have hrd : mtd_read_buffer d off 32
      = some ((List.range 32).map (fun (i : Nat) => d.flash (off + (i : Int)))) :=
    (mtd_read_buffer_eq_some d off 32 _).2 ⟨⟨h0, h1, fun i _ => hgood _⟩, rfl⟩
  unfold read_hdr
  rw [hrd]
  simp only
  rw [hdr_of_image_congr sys.host _ (hdr_image ByteOrder.big h)
    (fun i hi => by rw [getD_map_range _ 32 i hi]; exact hb i hi), decode_hdr_image sys.host h hw]

/-- Storing a list and then its continuation is storing the whole list. -/
theorem put_append (flash : Int → Nat) (off : Int) (l1 l2 : List Nat) (a : Int) :
    put (put flash off l1) (off + l1.length) l2 a = put flash off (l1 ++ l2) a := by
  unfold put
  simp only [List.length_append, Nat.cast_add]
  by_cases h1 : off ≤ a ∧ a < off + l1.length
  · have h2 : ¬ (off + (l1.length : Int) ≤ a ∧ a < off + l1.length + l2.length) := by omega
    have h3 : off ≤ a ∧ a < off + (↑l1.length + ↑l2.length) := by omega
    rw [if_neg h2, if_pos h1, if_pos h3, List.getD_append _ _ _ _ (by omega)]
  · by_cases h2 : off + (l1.length : Int) ≤ a ∧ a < off + l1.length + l2.length
    · have h3 : off ≤ a ∧ a < off + (↑l1.length + ↑l2.length) := by omega
      rw [if_pos h2, if_pos h3, List.getD_append_right _ _ _ _ (by omega)]
      congr 1
      omega
    · have h3 : ¬ (off ≤ a ∧ a < off + (↑l1.length + ↑l2.length)) := by omega
      rw [if_neg h2, if_neg h1, if_neg h3]

/-- A device write on a fault-free device within the device stores the buffer. -/
theorem mtd_write_buffer_ok (d : Mtd) (buf : List Nat) (off : Int) (hgood : d.fault_free)
    (h0 : 0 ≤ off) (h1 : off + buf.length ≤ d.mtdsize) :
    (mtd_write_buffer d buf off).1 = 0 ∧
    (mtd_write_buffer d buf off).2.mtdsize = d.mtdsize ∧
    (mtd_write_buffer d buf off).2.erasesize = d.erasesize ∧
    (mtd_write_buffer d buf off).2.bad = d.bad ∧
    (mtd_write_buffer d buf off).2.flash = put d.flash off buf := by
  have hc : ¬ (off < 0 ∨ off + buf.length > d.mtdsize ∨
      (List.range buf.length).any (fun (i : Nat) => d.bad (off + (i : Int))) = true) := by
    rintro (h | h | h)
    · omega
    · omega
    · obtain ⟨i, -, hb⟩ := List.any_eq_true.1 h
      rw [hgood _] at hb
      exact absurd hb (by decide)
  unfold mtd_write_buffer
  rw [if_neg hc]
  exact ⟨rfl, rfl, rfl, rfl, rfl⟩

/-- The payload loop of the writer on a fault-free device stores the bytes of the source
from `off` on and returns 0, when they fit the device. -/
theorem write_payload_ok :
    ∀ (fuel : Nat) (d : Mtd) (rest : List Nat) (off : Int), rest.length < fuel →
      d.fault_free → 0 ≤ off → off + rest.length ≤ d.mtdsize → d.mtdsize ≤ 2147483647 →
      (write_payload fuel d rest off).1 = 0 ∧
      (write_payload fuel d rest off).2.mtdsize = d.mtdsize ∧
      (write_payload fuel d rest off).2.erasesize = d.erasesize ∧
      (write_payload fuel d rest off).2.bad = d.bad ∧
      ∀ a, (write_payload fuel d rest off).2.flash a = put d.flash off rest a
  | 0, _, _, _, hf, _, _, _, _ => absurd hf (Nat.not_lt_zero _)
  | fuel + 1, d, rest, off, hf, hgood, h0, h1, hs => by
    rw [write_payload]
    by_cases hb : (rest.take 256).length > 0
    · simp only [hb, if_true]
      have hlen : (rest.take 256).length + (rest.drop 256).length = rest.length := by
        rw [← List.length_append, List.take_append_drop]
      have hcast : ((rest.take 256).length : Int) + ((rest.drop 256).length : Int) = rest.length := by
        exact_mod_cast hlen
      obtain ⟨w1, w2, w3, w4, w5⟩ := mtd_write_buffer_ok d (rest.take 256) off hgood h0 (by omega)
      have hnot : ¬ (mtd_write_buffer d (rest.take 256) off).1 < 0 := by rw [w1]; decide
      rw [if_neg hnot, i32_of_range (off + (rest.take 256).length) (by omega) (by omega)]
      have hg2 : (mtd_write_buffer d (rest.take 256) off).2.fault_free := by
        intro a; rw [w4]; exact hgood a
      obtain ⟨r1, r2, r3, r4, r5⟩ := write_payload_ok fuel (mtd_write_buffer d (rest.take 256) off).2
        (rest.drop 256) (off + (rest.take 256).length) (by omega) hg2 (by omega)
        (by rw [w2]; omega) (by rw [w2]; exact hs)
      refine ⟨r1, r2.trans w2, r3.trans w3, r4.trans w4, fun a => ?_⟩
      rw [r5 a, w5, put_append, List.take_append_drop]
    · simp only [hb, if_false]
      have hnil : rest = [] := by
        cases rest with
        | nil => rfl
        | cons x xs => simp at hb
      subst hnil
      refine ⟨trivial, trivial, trivial, trivial, fun a => ?_⟩
      have hc : ¬ (off ≤ a ∧ a < off + (([] : List Nat).length : Int)) := by
        simp only [List.length_nil, Nat.cast_zero, add_zero, not_and, not_lt]
        exact fun h => h
      simp only [put, if_neg hc]

theorem hdr_image_length (host : ByteOrder) (h : file_header) : (hdr_image host h).length = 32 := by
  cases host <;> rfl

/-- The memory image of an encoded header is the big-endian image of the header. -/
theorem hdr_image_hdr_to_be32 (host : ByteOrder) (h : file_header) :
    hdr_image host (hdr_to_be32 host h) = hdr_image ByteOrder.big h := by
  simp only [hdr_image, hdr_to_be32, store32_cpu_to_be32]
  rfl

/-- The bytes of a device after the two erase calls and the writes of a record, by regions:
`B` is the offset of the record, `S` the end of its span, `G` the end of the guard unit, `M`
the size of the device. -/
theorem record_flash (B S G M : Int) (img bytes : List Nat) (f0 f2 f4 : Int → Nat)
    (h1 : B + 32 + bytes.length ≤ S) (h2 : S ≤ G) (himg : img.length = 32)
    (he : ∀ a, f2 a = if S ≤ a ∧ a < G ∧ 0 ≤ a ∧ a < M then 255
      else if B ≤ a ∧ a < S ∧ 0 ≤ a ∧ a < M then 255 else f0 a)
    (hw : ∀ a, f4 a = put (put f2 B img) (B + 32) bytes a) :
    (∀ i : Nat, i < 32 → f4 (B + (i : Int)) = img.getD i 0) ∧
    (∀ i : Nat, i < bytes.length → f4 (B + 32 + (i : Int)) = bytes.getD i 0) ∧
    (∀ a, a < B → f4 a = f0 a) ∧ (∀ a, G ≤ a → f4 a = f0 a) ∧
    (∀ a, S ≤ a → a < G → 0 ≤ a → a < M → f4 a = 255) := by
  refine ⟨fun i hi => ?_, fun i hi => ?_, fun a ha => ?_, fun a ha => ?_, fun a ha1 ha2 ha3 ha4 => ?_⟩
  · have c1 : ¬ (B + 32 ≤ B + (i : Int) ∧ B + (i : Int) < B + 32 + bytes.length) := by omega
    have c2 : B ≤ B + (i : Int) ∧ B + (i : Int) < B + img.length := by omega
    have c3 : (B + (i : Int) - B).toNat = i := by simp
    rw [hw]
    simp only [put, if_neg c1, if_pos c2, c3]
  · have c1 : B + 32 ≤ B + 32 + (i : Int) ∧ B + 32 + (i : Int) < B + 32 + bytes.length := by omega
    have c3 : (B + 32 + (i : Int) - (B + 32)).toNat = i := by simp
    rw [hw]
    simp only [put, if_pos c1, c3]
  · have c1 : ¬ (B + 32 ≤ a ∧ a < B + 32 + bytes.length) := by omega
    have c2 : ¬ (B ≤ a ∧ a < B + img.length) := by omega
    have c3 : ¬ (S ≤ a ∧ a < G ∧ 0 ≤ a ∧ a < M) := by omega
    have c4 : ¬ (B ≤ a ∧ a < S ∧ 0 ≤ a ∧ a < M) := by omega
    rw [hw]
    simp only [put, if_neg c1, if_neg c2]
    rw [he, if_neg c3, if_neg c4]
  · have c1 : ¬ (B + 32 ≤ a ∧ a < B + 32 + bytes.length) := by omega
    have c2 : ¬ (B ≤ a ∧ a < B + img.length) := by omega
    have c3 : ¬ (S ≤ a ∧ a < G ∧ 0 ≤ a ∧ a < M) := by omega
    have c4 : ¬ (B ≤ a ∧ a < S ∧ 0 ≤ a ∧ a < M) := by omega
    rw [hw]
    simp only [put, if_neg c1, if_neg c2]
    rw [he, if_neg c3, if_neg c4]
  · have c1 : ¬ (B + 32 ≤ a ∧ a < B + 32 + bytes.length) := by omega
    have c2 : ¬ (B ≤ a ∧ a < B + img.length) := by omega
    have c3 : S ≤ a ∧ a < G ∧ 0 ≤ a ∧ a < M := ⟨ha1, ha2, ha3, ha4⟩
    rw [hw]
    simp only [put, if_neg c1, if_neg c2]
    rw [he, if_pos c3]

/-- Ranges of a record that fits a device whose size fits an `int`. -/
theorem record_range (E block sp n M : Int) (hE : 0 < E) (hb : 0 ≤ block) (hsp : 1 ≤ sp)
    (hn : 0 ≤ n) (h2 : n + 32 ≤ E * sp) (hfit : block * E + E * sp ≤ M) (hM : M ≤ 2147483647) :
    (0 ≤ block * E ∧ i32 (block * E) = block * E ∧ i32 (block + sp) = block + sp ∧
      i32 n = n ∧ E * sp ≤ 2147483647 ∧ i32 (block * E + E * sp) = block * E + E * sp ∧
      i32 (block * E + 32) = block * E + 32) ∧
    (block * E + 32 + n ≤ (block + sp) * E ∧
      (block + sp) * E ≤ (block + sp + 1) * E ∧ (block + sp) * E ≤ M ∧
      block * E + 32 ≤ M ∧ block * E + 32 + n ≤ M ∧ 0 ≤ block * E + 32 ∧
      0 ≤ (block + sp) * E ∧ n ≤ 2147483647) := by
  have h1 : 0 ≤ block * E := Int.mul_nonneg hb hE.le
  have h4 := le_mul_erasesize E block hE hb
  have h5 := le_mul_erasesize E sp hE (by omega)
  have h6 : (block + sp) * E = block * E + E * sp := by ring
  have h7 : (block + sp + 1) * E = block * E + E * sp + E := by ring
  rw [mul_comm] at h5
  rw [h6, h7]
  exact ⟨⟨h1, i32_of_range _ (by omega) (by omega), i32_of_range _ (by omega) (by omega),
    i32_of_range _ (by omega) (by omega), by omega, i32_of_range _ (by omega) (by omega),
    i32_of_range _ (by omega) (by omega)⟩, by omega, by omega, by omega, by omega, by omega,
    by omega, by omega, by omega⟩

theorem u32_of_int_le (n : Nat) (h : (n : Int) ≤ 2147483647) :
    u32 n = n ∧ n < 4294967296 := by
  unfold u32; omega

/-- On a fault-free device, `snapshot_write_file` of a source that fits at a nonnegative
unit returns 0 and stores the record: the header with the magic tag, the kind, the sequence,
the length and the digest of the source, and the bytes of the source behind it. -/
theorem snapshot_write_file_ok (sys : Sys) (d : Mtd) (fs : Fs) (block : Int) (file : String)
    (seq type : Nat) (bytes : List Nat) (hfile : fs file = some bytes) (hgood : d.fault_free)
    (hE : 0 < d.erasesize) (hb : 0 ≤ block)
    (hfit : block * d.erasesize + d.erasesize * span d.erasesize bytes.length ≤ d.mtdsize)
    (hsize : d.mtdsize ≤ 2147483647) (hseq : seq < 4294967296) (htype : type < 4294967296)
    (hmd5 : digest_wf (sys.md5 bytes)) :
    (snapshot_write_file sys d fs block file seq type).1 = 0 ∧
    stored sys d (snapshot_write_file sys d fs block file seq type).2 block
      ⟨OWRT, type, seq, bytes.length, (sys.md5 bytes).1, (sys.md5 bytes).2.1,
        (sys.md5 bytes).2.2.1, (sys.md5 bytes).2.2.2⟩ bytes := by
  obtain ⟨hs1, hs2⟩ := span_bounds d.erasesize bytes.length hE
  have hsp := span_pos d.erasesize bytes.length hE
  obtain ⟨⟨r0, r1, r2, r3, r4, r5, r6⟩, r7, r8, r9, q1, q2, q3, q4, q5⟩ :=
    record_range d.erasesize block (span d.erasesize bytes.length) bytes.length d.mtdsize hE hb
      hsp (Int.natCast_nonneg _) hs1 hfit hsize
  have hunits := units_eq_span d.erasesize bytes.length hE r4
  have hpad : pad_file_size d.erasesize bytes.length
      = d.erasesize * span d.erasesize bytes.length :=
    pad_file_size_eq d.erasesize bytes.length hE (Int.natCast_nonneg _) r4
  have hguard : ¬ i32 (block * d.erasesize + pad_file_size d.erasesize (i32 bytes.length))
      > d.mtdsize := by
    rw [r3, hpad, r5]; exact not_lt.2 hfit
  obtain ⟨hu32, hlt⟩ := u32_of_int_le bytes.length q5
  have himg := hdr_image_hdr_to_be32 sys.host
  simp only [snapshot_write_file, hfile, r1, hguard, if_false, hunits, r2, r6, hu32, himg]
  clear hguard hunits hpad r1 r2 r3 r5 r6 hu32
  generalize hhdr : (⟨OWRT, type, seq, bytes.length, (sys.md5 bytes).1, (sys.md5 bytes).2.1,
    (sys.md5 bytes).2.2.1, (sys.md5 bytes).2.2.2⟩ : file_header) = hdr
  have hwf : hdr.wf := by
    rw [← hhdr]
    exact ⟨(by decide : OWRT < 4294967296), htype, hseq, hlt, hmd5.1, hmd5.2.1, hmd5.2.2.1,
      hmd5.2.2.2⟩
  generalize hd2 : mtd_erase (mtd_erase d block (span d.erasesize bytes.length))
      (block + span d.erasesize bytes.length) 1 = d2
  have e1 : d2.mtdsize = d.mtdsize := by rw [← hd2]; rfl
  have e2 : d2.erasesize = d.erasesize := by rw [← hd2]; rfl
  have e3 : d2.bad = d.bad := by rw [← hd2]; rfl
  have e4 : ∀ a, d2.flash a
      = if (block + span d.erasesize bytes.length) * d.erasesize ≤ a ∧
          a < (block + span d.erasesize bytes.length + 1) * d.erasesize ∧ 0 ≤ a ∧ a < d.mtdsize
        then 255
        else if block * d.erasesize ≤ a ∧
          a < (block + span d.erasesize bytes.length) * d.erasesize ∧ 0 ≤ a ∧ a < d.mtdsize
        then 255 else d.flash a := by
    intro a; rw [← hd2]; rfl
  have hg2 : d2.fault_free := by intro a; rw [e3]; exact hgood a
  have hlen := hdr_image_length ByteOrder.big hdr
  have hlen2 : block * d.erasesize + ((hdr_image ByteOrder.big hdr).length : Int) ≤ d2.mtdsize := by
    rw [hlen, e1]; exact q1
  obtain ⟨w1, w2, w3, w4, w5⟩ := mtd_write_buffer_ok d2 (hdr_image ByteOrder.big hdr)
    (block * d.erasesize) hg2 r0 hlen2
  have hne : ¬ ((mtd_write_buffer d2 (hdr_image ByteOrder.big hdr) (block * d.erasesize)).1 ≠ 0) := by
    rw [w1]; decide
  rw [if_neg hne]
  clear hne
  generalize hd3 : (mtd_write_buffer d2 (hdr_image ByteOrder.big hdr) (block * d.erasesize)).2 = d3
    at w2 w3 w4 w5
  have hg3 : d3.fault_free := by intro a; rw [w4, e3]; exact hgood a
  obtain ⟨p1, p2, p3, p4, p5⟩ := write_payload_ok (bytes.length + 1) d3 bytes
    (block * d.erasesize + 32) (Nat.lt_succ_self _) hg3 q3
    (by rw [w2, e1]; exact q2) (by rw [w2, e1]; exact hsize)
  generalize hd4 : (write_payload (bytes.length + 1) d3 bytes (block * d.erasesize + 32)).2 = d4
    at p2 p3 p4 p5
  obtain ⟨f1, f2, f3, f4, f5⟩ := record_flash (block * d.erasesize)
    ((block + span d.erasesize bytes.length) * d.erasesize)
    ((block + span d.erasesize bytes.length + 1) * d.erasesize) d.mtdsize
    (hdr_image ByteOrder.big hdr) bytes d.flash d2.flash d4.flash r7 r8 hlen e4
    (fun a => by rw [p5 a, w5])
  have hm4 : d4.mtdsize = d.mtdsize := by rw [p2, w2, e1]
  have hb4 : d4.bad = d.bad := by rw [p4, w4, e3]
  have hg4 : d4.fault_free := by intro a; rw [hb4]; exact hgood a
  refine ⟨p1, hm4, by rw [p3, w3, e2], hb4, ?_, ?_, f3, f4, fun a a1 a2 a3 => ?_⟩
  · exact read_hdr_of_bytes sys d4 _ hdr hg4 r0 (by rw [hm4]; exact q1) f1 hwf
  · rw [mtd_read_buffer_eq_some]
    refine ⟨⟨q3, by rw [hm4]; exact q2, fun i _ => hg4 _⟩, ?_⟩
    conv_lhs => rw [← map_range_getD bytes]
    apply List.map_congr_left
    intro i hi
    exact (f2 i (List.mem_range.1 hi)).symm
  · exact f5 a a1 a2 (le_trans q4 a1) a3

/-! ## Frame of the writer and the chain after `snapshot_write` -/

/-- A device read sees only the geometry, the faults and the bytes of its range. -/
theorem mtd_read_buffer_congr (d d2 : Mtd) (off : Int) (len : Nat) (hm : d2.mtdsize = d.mtdsize)
    (hb : d2.bad = d.bad)
    (hf : ∀ i : Nat, i < len → d2.flash (off + (i : Int)) = d.flash (off + (i : Int))) :
    mtd_read_buffer d2 off len = mtd_read_buffer d off len := by
  have hmap : (List.range len).map (fun (i : Nat) => d2.flash (off + (i : Int)))
      = (List.range len).map (fun (i : Nat) => d.flash (off + (i : Int))) :=
    List.map_congr_left (fun i hi => hf i (List.mem_range.1 hi))
  unfold mtd_read_buffer
  rw [hm, hb, hmap]

theorem read_hdr_congr (sys : Sys) (d d2 : Mtd) (off : Int) (hm : d2.mtdsize = d.mtdsize)
    (hb : d2.bad = d.bad)
    (hf : ∀ i : Nat, i < 32 → d2.flash (off + (i : Int)) = d.flash (off + (i : Int))) :
    read_hdr sys d2 off = read_hdr sys d off := by
  unfold read_hdr
  rw [mtd_read_buffer_congr d d2 off 32 hm hb hf]

/-- The header of a record that ends at or below unit `f` lies below the offset of `f`. -/
theorem header_below (E u sp ce f len : Int) (i : Nat) (hE : 0 < E) (hl : 0 ≤ len)
    (h2 : len + 32 ≤ E * sp) (h3 : u + sp ≤ ce) (h4 : ce ≤ f) (hi : i < 32) :
    u * E + (i : Int) < f * E := by
  have h5 : (u + sp) * E ≤ f * E := Int.mul_le_mul_of_nonneg_right (le_trans h3 h4) hE.le
  rw [add_mul, mul_comm sp E] at h5
  omega

/-- A chain of Data records that ends at or below unit `f` is still there after the bytes
from the offset of `f` on have changed. -/
theorem data_chain_frame (sys : Sys) (d d2 : Mtd) (f : Int) (hE : 0 < d.erasesize)
    (hm : d2.mtdsize = d.mtdsize) (he : d2.erasesize = d.erasesize) (hb : d2.bad = d.bad)
    (hf : ∀ a, a < f * d.erasesize → d2.flash a = d.flash a) :
    ∀ (lens : List Nat) (u : Int) (s : Nat), chain_end d.erasesize u lens ≤ f →
      data_chain sys d u s lens → data_chain sys d2 u s lens
  | [], _, _, _, _ => trivial
  | len :: rest, u, s, hce, hc => by
    obtain ⟨h1, h2, h3, h4⟩ := hc
    obtain ⟨hs1, -⟩ := span_bounds d.erasesize len hE
    have hge := chain_end_ge d.erasesize hE rest (u + span d.erasesize len)
    simp only [chain_end] at hce
    refine ⟨?_, h2, h3, ?_⟩
    · rw [he, read_hdr_congr sys d d2 _ hm hb
        (fun i hi => hf _ (header_below d.erasesize u (span d.erasesize len) _ f len i hE
          (Int.natCast_nonneg _) hs1 hge hce hi))]
      exact h1
    · rw [he]
      exact data_chain_frame sys d d2 f hE hm he hb hf rest _ _ hce h4

/-- A chain of Data records with one more record behind it. -/
theorem data_chain_snoc (sys : Sys) (d : Mtd) (n : Nat) :
    ∀ (lens : List Nat) (u : Int) (s : Nat), data_chain sys d u s lens →
      ((read_hdr sys d (chain_end d.erasesize u lens * d.erasesize)).map
          (fun h => (h.magic, h.type, h.seq, h.length))
        = some (OWRT, DATA, u32 (s + lens.length), n) ∧
        n < 4294967296 ∧ valid_file_size (i32 n) = 0) →
      data_chain sys d u s (lens ++ [n])
  | [], u, s, _, hr => ⟨hr.1, hr.2.1, hr.2.2, trivial⟩
  | len :: rest, u, s, hc, hr => by
    obtain ⟨h1, h2, h3, h4⟩ := hc
    refine ⟨h1, h2, h3, data_chain_snoc sys d n rest _ _ h4 ?_⟩
    have hidx : s + 1 + rest.length = s + (len :: rest).length := by
      simp only [List.length_cons]; omega
    rw [hidx]
    exact hr

theorem chain_end_snoc (E : Int) (n : Nat) :
    ∀ (lens : List Nat) (u : Int), chain_end E u (lens ++ [n]) = chain_end E u lens + span E n
  | [], _ => rfl
  | len :: rest, u => by
    simp only [List.cons_append, chain_end]
    exact chain_end_snoc E n rest _

/-- The header a fault-free device hands over for 32 erased bytes. -/
theorem read_hdr_erased (sys : Sys) (d : Mtd) (off : Int) (hgood : d.fault_free) (h0 : 0 ≤ off)
    (h1 : off + 32 ≤ d.mtdsize) (hb : ∀ i : Nat, i < 32 → d.flash (off + (i : Int)) = 255) :
    read_hdr sys d off = some ⟨0xffffffff, 0xffffffff, 0xffffffff, 0xffffffff, 0xffffffff,
      0xffffffff, 0xffffffff, 0xffffffff⟩ := by
  apply read_hdr_of_bytes sys d off _ hgood h0 h1 _ (by decide)
  intro i hi
  rw [hb i hi]
  have himg : hdr_image ByteOrder.big ⟨0xffffffff, 0xffffffff, 0xffffffff, 0xffffffff,
      0xffffffff, 0xffffffff, 0xffffffff, 0xffffffff⟩ = List.replicate 32 255 := by decide
  rw [himg, List.getD_eq_getElem _ _ (by simpa using hi), List.getElem_replicate]

/-- Ranges after a record was appended at unit `f` with its guard unit on the device. -/
theorem append_range (E f sp M : Int) (i : Nat) (hE : 32 ≤ E) (hf : 0 ≤ f) (hsp : 1 ≤ sp)
    (hfit : (f + sp + 1) * E ≤ M) (hM : M ≤ 2147483647) (hi : i < 32) :
    f * E + E * sp ≤ M ∧ 0 ≤ (f + sp) * E ∧ (f + sp) * E + 32 ≤ M ∧
    (f + sp) * E ≤ 2147483647 ∧ i32 ((f + sp) * E) = (f + sp) * E ∧
    (f + sp) * E ≤ (f + sp) * E + (i : Int) ∧
    (f + sp) * E + (i : Int) < (f + sp + 1) * E ∧ (f + sp) * E + (i : Int) < M := by
  have h1 : 0 ≤ (f + sp) * E := Int.mul_nonneg (by omega) (by omega)
  have h2 : (f + sp + 1) * E = (f + sp) * E + E := by ring
  have h3 : (f + sp) * E = f * E + E * sp := by ring
  rw [h2] at hfit ⊢
  rw [← h3]
  exact ⟨by omega, h1, by omega, by omega, i32_of_range _ (by omega) (by omega), by omega,
    by omega, by omega⟩

theorem pad_units (E : Int) (n : Nat) (hE : 0 < E) (hov : E * span E n ≤ 2147483647) :
    pad_file_size E n / E = span E n := by
  rw [pad_file_size_eq E n hE (Int.natCast_nonneg _) hov]
  exact Int.mul_ediv_cancel_left _ (ne_of_gt hE)

theorem clamp_block (f : Int) (hf : 1 ≤ f) : (if f < 0 then 0 else f) = f := by
  rw [if_neg (by omega)]

theorem valid_length_of_size (n : Nat) (hn : (n : Int) ≤ 2147483647)
    (hv : valid_file_size (i32 n) = 0) : n < 4294967296 ∧ valid_file_size (i32 n) = 0 :=
  ⟨by omega, hv⟩

theorem last_seq_succ (s k : Nat) (hk : 1 ≤ k) : u32 (u32 (s + k - 1) + 1) = u32 (s + k) := by
  rw [u32_succ_u32]
  congr 1
  omega

theorem snoc_last_index (s k : Nat) : s + (k + 1) - 1 = s + k := by omega

theorem fuel_split (fuel k : Nat) (h : k + 1 < fuel) : ∃ g, fuel = (g + 1) + (k + 1) :=
  ⟨fuel - k - 2, by omega⟩

/-- C16. For every fault-free device whose forward chain is `k >= 1` valid Data records
back to back from unit 0 with consecutive sequences, which the forward scan follows to the
free unit `f` and the last sequence `q`, and every snapshot file of a size that passes the
length check and fits at `f` together with its guard unit, `snapshot_write` returns 0, the
forward scan afterwards returns `f + pad_file_size(size) / erasesize` with the last sequence
`q + 1` modulo `2 ^ 32`, the records of the chain are as before and no byte below the offset
of `f` has changed. -/
theorem C16_snapshot_write_extends_chain (sys : Sys) (d : Mtd) (fs : Fs) (seed fuel s : Nat)
    (lens : List Nat) (bytes : List Nat) (hgood : d.fault_free) (hE : 32 ≤ d.erasesize)
    (hsize : d.mtdsize ≤ 2147483647) (hk : 1 ≤ lens.length) (hchain : data_chain sys d 0 s lens)
    (hscan : snapshot_next_free sys d seed fuel
      = some (chain_end d.erasesize 0 lens, u32 (s + lens.length - 1)))
    (hfile : fs "/tmp/snapshot.tar.gz" = some bytes)
    (hsane : valid_file_size (i32 bytes.length) = 0) (hmd5 : digest_wf (sys.md5 bytes))
    (hfit : (chain_end d.erasesize 0 lens + span d.erasesize bytes.length + 1) * d.erasesize
      ≤ d.mtdsize) :
    ∃ d2, snapshot_write sys d fs seed fuel = some (0, d2) ∧
      (∀ seed2 fuel2 : Nat, lens.length + 1 < fuel2 →
        snapshot_next_free sys d2 seed2 fuel2
          = some (chain_end d.erasesize 0 lens + pad_file_size d.erasesize bytes.length / d.erasesize,
              u32 (u32 (s + lens.length - 1) + 1))) ∧
      data_chain sys d2 0 s lens ∧
      ∀ a, a < chain_end d.erasesize 0 lens * d.erasesize → d2.flash a = d.flash a := by
  have hE0 : 0 < d.erasesize := lt_of_lt_of_le (by decide) hE
  have hpos := chain_end_pos d.erasesize hE0 lens hk
  have hf0 : 0 ≤ chain_end d.erasesize 0 lens := le_trans (by decide) hpos
  have hsp := span_pos d.erasesize bytes.length hE0
  obtain ⟨a1, a2, a3, a4, a5, -, -, -⟩ := append_range d.erasesize (chain_end d.erasesize 0 lens)
    (span d.erasesize bytes.length) d.mtdsize 0 hE hf0 hsp hfit hsize (by decide)
  obtain ⟨hs1, -⟩ := span_bounds d.erasesize bytes.length hE0
  obtain ⟨⟨-, -, -, -, r4, -, -⟩, -, -, -, -, -, -, -, q5⟩ :=
    record_range d.erasesize (chain_end d.erasesize 0 lens) (span d.erasesize bytes.length)
      bytes.length d.mtdsize hE0 hf0 hsp (Int.natCast_nonneg _) hs1 a1 hsize
  obtain ⟨hn32, -⟩ := valid_length_of_size bytes.length q5 hsane
  obtain ⟨hret, hm, he, hb, hhdr, -, hlow, -, hguard⟩ :=
    snapshot_write_file_ok sys d fs (chain_end d.erasesize 0 lens) "/tmp/snapshot.tar.gz"
      (u32 (u32 (s + lens.length - 1) + 1)) DATA bytes hfile hgood hE0 hf0 a1 hsize
      (Nat.mod_lt _ (by decide)) (by decide) hmd5
  have hw : snapshot_write sys d fs seed fuel
      = some (snapshot_write_file sys d fs (chain_end d.erasesize 0 lens) "/tmp/snapshot.tar.gz"
          (u32 (u32 (s + lens.length - 1) + 1)) DATA) := by
    simp only [snapshot_write, hscan, clamp_block _ hpos]
  generalize snapshot_write_file sys d fs (chain_end d.erasesize 0 lens) "/tmp/snapshot.tar.gz"
    (u32 (u32 (s + lens.length - 1) + 1)) DATA = w at hret hm he hb hhdr hlow hguard hw
  have hg2 : w.2.fault_free := by intro a; rw [hb]; exact hgood a
  have hchain2 : data_chain sys w.2 0 s lens :=
    data_chain_frame sys d w.2 _ hE0 hm he hb hlow lens 0 s (le_refl _) hchain
  refine ⟨w.2, by rw [hw, ← hret], ?_, hchain2, hlow⟩
  intro seed2 fuel2 hfuel
  have hchain3 : data_chain sys w.2 0 s (lens ++ [bytes.length]) := by
    apply data_chain_snoc sys w.2 bytes.length lens 0 s hchain2
    rw [he, hhdr]
    refine ⟨?_, hn32, hsane⟩
    simp only [Option.map_some', last_seq_succ s lens.length hk]
  obtain ⟨g, rfl⟩ := fuel_split fuel2 lens.length hfuel
  have hlen : (lens ++ [bytes.length]).length = lens.length + 1 := by simp
  have hend : chain_end w.2.erasesize 0 (lens ++ [bytes.length])
      = chain_end d.erasesize 0 lens + span d.erasesize bytes.length := by
    rw [he, chain_end_snoc]
  have hne : lens ++ [bytes.length] ≠ [] := by simp
  unfold snapshot_next_free
  rw [← hlen, next_free_loop_chain sys w.2 (by rw [he]; exact hE0) (lens ++ [bytes.length]) 0 s
    seed2 (g + 1) (le_refl 0) (by rw [hend, he]; exact a4) hchain3 (Or.inl rfl), if_neg hne, hend,
    hlen, snoc_last_index, ← last_seq_succ s lens.length hk, pad_units d.erasesize bytes.length hE0 r4]
  have hoff : i32 ((chain_end d.erasesize 0 lens + span d.erasesize bytes.length) * w.2.erasesize)
      = (chain_end d.erasesize 0 lens + span d.erasesize bytes.length) * w.2.erasesize := by
    rw [he]; exact a5
  refine next_free_loop_stop sys w.2 g _ _ _ hoff
    (read_hdr_erased sys w.2 _ hg2 (by rw [he]; exact a2) (by rw [he, hm]; exact a3) ?_)
    (Or.inl (by decide))
  intro i hi
  obtain ⟨-, -, -, -, -, b1, b2, b3⟩ := append_range d.erasesize (chain_end d.erasesize 0 lens)
    (span d.erasesize bytes.length) d.mtdsize i hE hf0 hsp hfit hsize hi
  rw [he]
  exact hguard _ b1 b2 b3

/-- C16, at the device with the sequences 5 and 6 in the units 0 to 2 and a snapshot file of
four bytes: the record goes to unit 3 and the scan then returns unit 4 with the last
sequence 7. -/
theorem C16_snapshot_write_extends_chain_witness :
    (snapshot_write example_sys example_chain_56 example_small_fs 12345 3).map
        (fun r => (r.1, snapshot_next_free example_sys r.2 99 4)) = some (0, some (4, 7)) := by
  obtain ⟨d2, h1, h2, -, -⟩ := C16_snapshot_write_extends_chain example_sys example_chain_56
    example_small_fs 12345 3 5 [3, 40] [1, 2, 3, 4] (fun _ => rfl) (by decide) (by decide)
    (by decide) (by decide) (by decide) (by decide) (by decide) (by decide) (by decide)
  have hv : (some (chain_end example_chain_56.erasesize 0 [3, 40] +
        pad_file_size example_chain_56.erasesize ([1, 2, 3, 4] : List Nat).length /
          example_chain_56.erasesize,
      u32 (u32 (5 + ([3, 40] : List Nat).length - 1) + 1)) : Option (Int × Nat)) = some (4, 7) := by
    decide
  rw [h1, Option.map_some', h2 99 4 (by decide), hv]

/-! ## Demotion of the sentinel copy -/

/-- With a destination that is absent or no longer than the payload, a record whose header
passes the checks and whose payload on the device has the digest of the header is copied to
the destination, and `snapshot_read_file` returns the start unit advanced by the padded size
of an empty payload. -/
theorem snapshot_read_file_ok (sys : Sys) (d : Mtd) (fs : Fs) (block : Int) (file : String)
    (type : Nat) (h : file_header) (payload : List Nat)
    (hr : read_hdr sys d (i32 (block * d.erasesize)) = some h) (hm : h.magic = OWRT)
    (ht : h.type = type) (hv : valid_file_size (i32 h.length) = 0)
    (hp : mtd_read_buffer d (i32 (block * d.erasesize) + 32) h.length = some payload)
    (hd : sys.md5 payload = (h.md5_0, h.md5_1, h.md5_2, h.md5_3))
    (hfresh : ((fs file).getD []).length ≤ h.length) :
    snapshot_read_file sys d fs block file type
      = (i32 (block + i32 (Int.tdiv (pad_file_size d.erasesize (i32 (0 : Nat))) d.erasesize)),
         fs.set file (some payload)) := by
  have hlen : payload.length = h.length := by
    rw [((mtd_read_buffer_eq_some d _ _ payload).1 hp).2]; simp
  have hdrop : List.drop payload.length ((fs file).getD []) = [] :=
    List.drop_of_length_le (by omega)
  simp only [snapshot_read_file, hr, hm, ht, hv, ne_eq, not_true_eq_false, if_false,
    read_payload_ok d h.length h.length _ [] payload (le_refl _) hp, List.nil_append, hdrop,
    List.append_nil, verify_file_hash, Fs.set, if_true, hd]

/-- The value `snapshot_read_file` returns for a record it read at a unit from 1 on is
positive. -/
theorem read_advance_pos (E block M : Int) (hE : 0 < E) (hb : 1 ≤ block)
    (hfit : block * E + 32 ≤ M) (hM : M ≤ 2147483647) :
    i32 (block + i32 (Int.tdiv (pad_file_size E (i32 (0 : Nat))) E)) > 0 ∧
    i32 (block * E) = block * E := by
  obtain ⟨h1, h2⟩ := span_bounds E (0 : Nat) hE
  have hsp := span_pos E (0 : Nat) hE
  have hble := le_mul_erasesize E block hE (by omega)
  have hEb : E * 1 ≤ E * block := Int.mul_le_mul_of_nonneg_left hb hE.le
  have hsE : E * 1 ≤ E * span E (0 : Nat) := Int.mul_le_mul_of_nonneg_left hsp hE.le
  have hs32 : span E (0 : Nat) ≤ 32 := by
    by_contra hc
    have : E * 33 ≤ E * span E (0 : Nat) := Int.mul_le_mul_of_nonneg_left (by omega) hE.le
    unfold span at this
    omega
  rw [mul_comm E block] at hEb
  have hov : E * span E (0 : Nat) ≤ 2147483647 := by unfold span; omega
  rw [units_eq_span E 0 hE hov]
  constructor
  · rw [i32_of_range _ (by omega) (by omega)]
    omega
  · exact i32_of_range _ (by omega) (by omega)

/-- A unit whose header can be read and that `config_find` may return lies from 1 on. -/
theorem unit_pos_of_read (E block off : Int) (hE : 0 < E) (h0 : 0 ≤ off) (ho : off = block * E)
    (hb : block = -1 ∨ 1 ≤ block) : 1 ≤ block := by
  rcases hb with hb | hb
  · subst hb; subst ho; omega
  · exact hb

/-- What `config_find` returns is `-1` or a unit from 1 on. -/
theorem config_find_unit (sys : Sys) (d : Mtd) (seed fuel : Nat) (conf0 sentinel0 : file_header)
    (block : Int) (conf sentinel : file_header)
    (h : config_find sys d seed fuel conf0 sentinel0 = some (block, conf, sentinel)) :
    block = -1 ∨ 1 ≤ block := by
  unfold config_find at h
  split at h
  · simp at h
  · next nx sq hs =>
    simp only [Option.some.injEq, Prod.mk.injEq] at h
    obtain ⟨h1, -, -⟩ := h
    rw [← h1]
    rcases sentinel_scan_result sys d nx (i32 (i32 (Int.tdiv d.mtdsize d.erasesize) - 1)).toNat
      { sentinel0 with magic := 0 } with hr | ⟨hr, -, -⟩
    · exact Or.inl hr
    · exact Or.inr hr

/-- A header whose magic tag was cleared is no Config. -/
theorem is_config_cleared (h : file_header) : is_config { h with magic := 0 } = false := by
  simp [is_config, OWRT]

/-- The sequence `volatile_write` and `sentinel_write` store. -/
theorem seq_choice (s q : Nat) (h : s = q) : (if s ≠ 0 then s else q) = s := by
  split
  · rfl
  · exact h.symm

/-! ## The forward scan: independence of the seed and of the bytes from the free unit on -/

theorem valid_file_size_int (l : Int) (h : valid_file_size l = 0) : 0 < l ∧ l ≤ 9863168 := by
  unfold valid_file_size at h
  split at h
  · exact absurd h (by decide)
  · next hc => omega

/-- One step of the scanner over a record with a valid length whose header lies on the
device: the advance is the span of the record, and neither the new unit nor its offset leave
the range in which the machine arithmetic is exact or yields a negative offset. -/
theorem scan_step_range (E b l M : Int) (hE : 32 ≤ E) (hEm : E ≤ 1073741824) (hb : 0 ≤ b)
    (hfit : b * E + 32 ≤ M) (hM : M ≤ 2147483647) (hl : 0 < l) (hl2 : l ≤ 9863168) :
    i32 (Int.tdiv (pad_file_size E l) E) = span E l ∧ i32 (b + span E l) = b + span E l ∧
    1 ≤ span E l ∧ (b + span E l) * E ≤ 3500000000 := by
  obtain ⟨h1, h2⟩ := span_bounds E l (by omega)
  have hsp : 1 ≤ (l + 32 + E - 1) / E := by
    by_contra hc
    have : E * ((l + 32 + E - 1) / E) ≤ E * 0 :=
      Int.mul_le_mul_of_nonneg_left (by omega) (by omega)
    omega
  have hble := le_mul_erasesize E b (by omega) hb
  have hsle := le_mul_erasesize E ((l + 32 + E - 1) / E) (by omega) (by omega)
  have hcomm : (l + 32 + E - 1) / E * E = E * ((l + 32 + E - 1) / E) := mul_comm _ _
  have hadd : (b + (l + 32 + E - 1) / E) * E = b * E + E * ((l + 32 + E - 1) / E) := by ring
  have hb32 : b * 32 ≤ b * E := Int.mul_le_mul_of_nonneg_left (by omega) hb
  have hq32 : (l + 32 + E - 1) / E * 32 ≤ (l + 32 + E - 1) / E * E :=
    Int.mul_le_mul_of_nonneg_left (by omega) (by omega)
  have hov : E * ((l + 32 + E - 1) / E) ≤ 2147483647 := by linarith
  unfold span
  rw [pad_file_size_eq E l (by omega) (by omega) hov,
    Int.tdiv_eq_ediv (by linarith) (by omega), Int.mul_ediv_cancel_left _ (by omega : E ≠ 0)]
  refine ⟨i32_of_range _ (by linarith) (by linarith), i32_of_range _ (by linarith) (by linarith),
    hsp, ?_⟩
  rw [hadd]
  linarith

/-- The offset of a unit the scanner reaches is exact or negative. -/
theorem scan_offset_cases (E b : Int) (hE : 0 < E) (hb : 0 ≤ b) (hr : b * E ≤ 3500000000) :
    i32 (b * E) = b * E ∨ i32 (b * E) < 0 := by
  have h0 : 0 ≤ b * E := Int.mul_nonneg hb hE.le
  unfold i32
  omega

/-- The scanner started at unit 0 returns the same nonzero unit and the same sequence
whatever the value of `rand()`. -/
theorem next_free_loop_seed (sys : Sys) (d : Mtd) (next : Int) (q : Nat) (hn : next ≠ 0) :
    ∀ (fuel seq seq2 : Nat), next_free_loop sys d fuel 0 seq = some (next, q) →
      next_free_loop sys d fuel 0 seq2 = some (next, q)
  | 0, seq, seq2, h => by
    have h0 : next_free_loop sys d 0 0 seq = none := rfl
    rw [h0] at h
    exact absurd h (by simp)
  | fuel + 1, seq, seq2, h => by
    rw [next_free_loop] at h ⊢
    split at h
    · simp only [Option.some.injEq, Prod.mk.injEq] at h
      exact absurd h.1.symm hn
    · next hdr hr =>
      by_cases hm : hdr.magic = OWRT
      · by_cases hv : hdr.type = DATA ∧ valid_file_size (i32 hdr.length) = 0
        · rw [if_neg (not_not.2 hm), if_pos hv, if_neg (fun hc => hc.2 rfl)] at h ⊢
          exact h
        · by_cases ht : hdr.type = DATA
          · rw [if_neg (not_not.2 hm), if_neg hv, if_pos ht] at h ⊢
            exact next_free_loop_seed sys d next q hn fuel seq seq2 h
          · rw [if_neg (not_not.2 hm), if_neg hv, if_neg ht] at h
            simp only [Option.some.injEq, Prod.mk.injEq] at h
            exact absurd h.1.symm hn
      · rw [if_pos hm] at h
        simp only [Option.some.injEq, Prod.mk.injEq] at h
        exact absurd h.1.symm hn

/-- What the scanner returns from unit `b` on is 0, a unit behind `b`, or `b` itself with the
sequence it came with. -/
theorem next_free_loop_ge (sys : Sys) (d : Mtd) (hE : 32 ≤ d.erasesize)
    (hEm : d.erasesize ≤ 1073741824) (hsize : d.mtdsize ≤ 2147483647) (n : Int) (q : Nat) :
    ∀ (fuel : Nat) (b : Int) (seq : Nat), 0 ≤ b → b * d.erasesize ≤ 3500000000 →
      next_free_loop sys d fuel b seq = some (n, q) → n = 0 ∨ b < n ∨ (n = b ∧ q = seq)
  | 0, b, seq, _, _, h => by
    have h0 : next_free_loop sys d 0 b seq = none := rfl
    rw [h0] at h
    exact absurd h (by simp)
  | fuel + 1, b, seq, hb, hr, h => by
    rw [next_free_loop] at h
    split at h
    · simp only [Option.some.injEq, Prod.mk.injEq] at h
      exact Or.inl h.1.symm
    · next hdr hrd =>
      have hrange := read_hdr_range sys d _ hdr hrd
      have hoff : i32 (b * d.erasesize) = b * d.erasesize := by
        rcases scan_offset_cases d.erasesize b (by omega) hb hr with hc | hc
        · exact hc
        · exact absurd hrange.1 (not_le.2 hc)
      rw [hoff] at hrange
      have here : n = b ∧ q = seq → n = 0 ∨ b < n ∨ (n = b ∧ q = seq) :=
        fun hc => Or.inr (Or.inr hc)
      by_cases hm : hdr.magic = OWRT
      · by_cases hv : hdr.type = DATA ∧ valid_file_size (i32 hdr.length) = 0
        · by_cases hg : u32 (seq + 1) ≠ hdr.seq ∧ b ≠ 0
          · rw [if_neg (not_not.2 hm), if_pos hv, if_pos hg] at h
            simp only [Option.some.injEq, Prod.mk.injEq] at h
            exact here ⟨h.1.symm, h.2.symm⟩
          · obtain ⟨hl, hl2⟩ := valid_file_size_int _ hv.2
            obtain ⟨s1, s2, s3, s4⟩ := scan_step_range d.erasesize b (i32 hdr.length)
              d.mtdsize hE hEm hb hrange.2 hsize hl hl2
            rw [if_neg (not_not.2 hm), if_pos hv, if_neg hg, s1, s2] at h
            have hb2 : 0 ≤ b + span d.erasesize (i32 hdr.length) := by
              clear h hv hl hl2 s1 s2 s4 hrange hoff hrd
              omega
            rcases next_free_loop_ge sys d hE hEm hsize n q fuel _ hdr.seq hb2 s4 h
              with hc | hc | hc
            · exact Or.inl hc
            · refine Or.inr (Or.inl ?_)
              clear h hv hl hl2 s1 s2 s4 hrange hoff hrd
              omega
            · refine Or.inr (Or.inl ?_)
              have hc1 := hc.1
              clear h hv hl hl2 s1 s2 s4 hrange hoff hrd hc
              omega
        · by_cases ht : hdr.type = DATA
          · rw [if_neg (not_not.2 hm), if_neg hv, if_pos ht] at h
            exact next_free_loop_ge sys d hE hEm hsize n q fuel b seq hb hr h
          · rw [if_neg (not_not.2 hm), if_neg hv, if_neg ht] at h
            simp only [Option.some.injEq, Prod.mk.injEq] at h
            exact here ⟨h.1.symm, h.2.symm⟩
      · rw [if_pos hm] at h
        simp only [Option.some.injEq, Prod.mk.injEq] at h
        exact here ⟨h.1.symm, h.2.symm⟩

/-- Offsets of the header of a unit below the unit `next`. -/
theorem below_next_range (E b next : Int) (i : Nat) (hE : 32 ≤ E) (hb : 0 ≤ b) (hlt : b < next)
    (hN : next * E ≤ 2147483647) (hi : i < 32) :
    i32 (b * E) = b * E ∧ b * E + (i : Int) < next * E ∧ b * E ≤ 3500000000 := by
  have h0 : 0 ≤ b * E := Int.mul_nonneg hb (by omega)
  have h1 : (b + 1) * E ≤ next * E := Int.mul_le_mul_of_nonneg_right (by omega) (by omega)
  rw [add_mul] at h1
  exact ⟨i32_of_range _ (by omega) (by omega), by omega, by omega⟩

/-- The scanner returns the same nonzero unit `next` and sequence on every device that has
the bytes of this one below `next` and no magic tag at `next`. -/
theorem next_free_loop_frame (sys : Sys) (d d2 : Mtd) (next : Int) (q : Nat) (h2 : file_header)
    (hE : 32 ≤ d.erasesize) (hEm : d.erasesize ≤ 1073741824) (hsize : d.mtdsize ≤ 2147483647)
    (hm : d2.mtdsize = d.mtdsize) (he : d2.erasesize = d.erasesize) (hbad : d2.bad = d.bad)
    (hf : ∀ a, a < next * d.erasesize → d2.flash a = d.flash a)
    (hN : next * d.erasesize ≤ 2147483647) (hn : next ≠ 0)
    (hr2 : read_hdr sys d2 (next * d.erasesize) = some h2) (hm2 : h2.magic ≠ OWRT) :
    ∀ (fuel : Nat) (b : Int) (seq : Nat), 0 ≤ b → b ≤ next →
      next_free_loop sys d fuel b seq = some (next, q) →
      next_free_loop sys d2 fuel b seq = some (next, q)
  | 0, b, seq, _, _, h => by
    have h0 : next_free_loop sys d 0 b seq = none := rfl
    rw [h0] at h
    exact absurd h (by simp)
  | fuel + 1, b, seq, hb, hle, h => by
    rcases eq_or_lt_of_le hle with heq | hlt
    · subst heq
      have hN2 : b * d.erasesize ≤ 3500000000 := le_trans hN (by norm_num)
      have hq : q = seq := by
        rcases next_free_loop_ge sys d hE hEm hsize b q (fuel + 1) b seq hb hN2 h
          with hc | hc | hc
        · exact absurd hc hn
        · exact absurd hc (lt_irrefl _)
        · exact hc.2
      rw [hq]
      have hoff : i32 (b * d2.erasesize) = b * d2.erasesize := by
        rw [he]
        exact i32_of_range _ (le_trans (by norm_num) (Int.mul_nonneg hb (le_trans (by norm_num) hE)))
          (lt_of_le_of_lt hN (by norm_num))
      exact next_free_loop_stop sys d2 fuel b seq h2 hoff (by rw [he]; exact hr2) (Or.inl hm2)
    · have hoff := (below_next_range d.erasesize b next 0 hE hb hlt hN (by decide)).1
      have hr := (below_next_range d.erasesize b next 0 hE hb hlt hN (by decide)).2.2
      have hcongr : read_hdr sys d2 (b * d.erasesize) = read_hdr sys d (b * d.erasesize) :=
        read_hdr_congr sys d d2 _ hm hbad (fun i hi =>
          hf _ (below_next_range d.erasesize b next i hE hb hlt hN hi).2.1)
      have hne : next ≠ b := ne_of_gt hlt
      rw [next_free_loop] at h ⊢
      rw [he, hoff, hcongr]
      rw [hoff] at h
      split at h
      · next hrd =>
        simp only [Option.some.injEq, Prod.mk.injEq] at h
        exact absurd h.1.symm hn
      · next hdr hrd =>
        have hrange := read_hdr_range sys d _ hdr hrd
        by_cases hmg : hdr.magic = OWRT
        · by_cases hv : hdr.type = DATA ∧ valid_file_size (i32 hdr.length) = 0
          · by_cases hg : u32 (seq + 1) ≠ hdr.seq ∧ b ≠ 0
            · rw [if_neg (not_not.2 hmg), if_pos hv, if_pos hg] at h
              simp only [Option.some.injEq, Prod.mk.injEq] at h
              exact absurd h.1.symm hne
            · obtain ⟨hl, hl2⟩ := valid_file_size_int _ hv.2
              obtain ⟨s1, s2, s3, s4⟩ := scan_step_range d.erasesize b (i32 hdr.length)
                d.mtdsize hE hEm hb hrange.2 hsize hl hl2
              rw [if_neg (not_not.2 hmg), if_pos hv, if_neg hg, s1, s2] at h
              rw [if_neg (not_not.2 hmg), if_pos hv, if_neg hg, s1, s2]
              have hb2 : 0 ≤ b + span d.erasesize (i32 hdr.length) :=
                add_nonneg hb (le_trans (by norm_num) s3)
              have hle2 : b + span d.erasesize (i32 hdr.length) ≤ next := by
                rcases next_free_loop_ge sys d hE hEm hsize next q fuel _ hdr.seq hb2 s4 h
                  with hc | hc | hc
                · exact absurd hc hn
                · exact le_of_lt hc
                · exact le_of_eq hc.1.symm
              exact next_free_loop_frame sys d d2 next q h2 hE hEm hsize hm he hbad hf hN hn
                hr2 hm2 fuel _ hdr.seq hb2 hle2 h
          · by_cases ht : hdr.type = DATA
            · rw [if_neg (not_not.2 hmg), if_neg hv, if_pos ht] at h
              rw [if_neg (not_not.2 hmg), if_neg hv, if_pos ht]
              exact next_free_loop_frame sys d d2 next q h2 hE hEm hsize hm he hbad hf hN hn
                hr2 hm2 fuel b seq hb hle h
            · rw [if_neg (not_not.2 hmg), if_neg hv, if_neg ht] at h
              simp only [Option.some.injEq, Prod.mk.injEq] at h
              exact absurd h.1.symm hne
        · rw [if_pos hmg] at h
          simp only [Option.some.injEq, Prod.mk.injEq] at h
          exact absurd h.1.symm hne

/-- The header the backward scan hands over with a unit from 1 on has a valid length. -/
theorem sentinel_scan_valid (sys : Sys) (d : Mtd) (next : Int) :
    ∀ (n : Nat) (s0 : file_header), 1 ≤ (sentinel_scan sys d next n s0).1 →
      valid_file_size (i32 (sentinel_scan sys d next n s0).2.length) = 0
  | 0, s0, h => by
    rw [sentinel_scan] at h
    exact absurd (show (1 : Int) ≤ -1 from h) (by decide)
  | n + 1, s0, h => by
    rw [sentinel_scan] at h ⊢
    split at h
    · exact absurd (show (1 : Int) ≤ -1 from h) (by decide)
    · next s hs =>
      by_cases hc : s.magic = OWRT ∧ s.type = CONF ∧ valid_file_size (i32 s.length) = 0
      · rw [if_pos hc] at h ⊢
        by_cases hx : next = (n : Int) + 1
        · rw [if_pos hx] at h
          exact absurd (show (1 : Int) ≤ -1 from h) (by decide)
        · rw [if_neg hx]
          exact hc.2.2
      · rw [if_neg hc] at h ⊢
        exact sentinel_scan_valid sys d next n s h

/-- The sentinel header `config_find` hands over with a unit from 1 on has a valid length. -/
theorem config_find_valid (sys : Sys) (d : Mtd) (seed fuel : Nat) (conf0 sentinel0 : file_header)
    (block : Int) (conf sentinel : file_header)
    (h : config_find sys d seed fuel conf0 sentinel0 = some (block, conf, sentinel))
    (hb : 1 ≤ block) : valid_file_size (i32 sentinel.length) = 0 := by
  unfold config_find at h
  split at h
  · simp at h
  · next nx sq hs =>
    simp only [Option.some.injEq, Prod.mk.injEq] at h
    obtain ⟨h1, -, h3⟩ := h
    rw [← h3]
    rw [← h1] at hb
    exact sentinel_scan_valid sys d nx _ _ hb

theorem mtd_erase_frame (d : Mtd) (first count : Int) (a : Int) (ha : a < first * d.erasesize) :
    (mtd_erase d first count).flash a = d.flash a := by
  simp only [mtd_erase]
  rw [if_neg (fun hc => absurd hc.1 (not_le.2 ha))]

theorem mtd_erase_erased (d : Mtd) (first count : Int) (a : Int) (h1 : first * d.erasesize ≤ a)
    (h2 : a < (first + count) * d.erasesize) (h3 : 0 ≤ a) (h4 : a < d.mtdsize) :
    (mtd_erase d first count).flash a = 255 := by
  simp only [mtd_erase]
  rw [if_pos ⟨h1, h2, h3, h4⟩]

/-- Offsets of the header of the first of two erased units. -/
theorem erased_header_range (E next M : Int) (i : Nat) (hE : 32 ≤ E) (hn : 0 < next)
    (hfit : next * E + 32 ≤ M) (hi : i < 32) :
    next * E ≤ next * E + (i : Int) ∧ next * E + (i : Int) < (next + 2) * E ∧
    0 ≤ next * E + (i : Int) ∧ next * E + (i : Int) < M ∧ 0 ≤ next * E := by
  have h0 : 0 ≤ next * E := Int.mul_nonneg hn.le (by omega)
  have h1 : (next + 2) * E = next * E + 2 * E := by ring
  rw [h1]
  omega

/-- After the two units at the free unit `next` were erased, the forward scan returns `next`
and the sequence it returned before, whatever the value of `rand()`. -/
theorem scan_after_erase (sys : Sys) (d : Mtd) (next : Int) (seq seed seed2 fuel : Nat)
    (hgood : d.fault_free) (hE : 32 ≤ d.erasesize) (hEm : d.erasesize ≤ 1073741824)
    (hsize : d.mtdsize ≤ 2147483647)
    (hscan : snapshot_next_free sys d seed fuel = some (next, seq)) (hn : next ≠ 0)
    (hfit : next * d.erasesize + 32 ≤ d.mtdsize) :
    0 < next ∧ snapshot_next_free sys d seed2 fuel = some (next, seq) ∧
    snapshot_next_free sys (mtd_erase d next 2) seed2 fuel = some (next, seq) := by
  unfold snapshot_next_free at *
  have hpos : 0 < next := by
    rcases next_free_loop_ge sys d hE hEm hsize next seq fuel 0 seed (le_refl _)
      (by rw [zero_mul]; norm_num) hscan with hc | hc | hc
    · exact absurd hc hn
    · exact hc
    · exact absurd hc.1 hn
  have hN : next * d.erasesize ≤ 2147483647 := by linarith
  have hr2 := read_hdr_erased sys (mtd_erase d next 2) (next * d.erasesize) hgood
    (erased_header_range d.erasesize next d.mtdsize 0 hE hpos hfit (by decide)).2.2.2.2 hfit
    (fun i hi => by
      obtain ⟨r1, r2, r3, r4, -⟩ := erased_header_range d.erasesize next d.mtdsize i hE hpos hfit hi
      exact mtd_erase_erased d next 2 _ r1 r2 r3 r4)
  have hframe := next_free_loop_frame sys d (mtd_erase d next 2) next seq _ hE hEm hsize rfl rfl
    rfl (fun a ha => mtd_erase_frame d next 2 a ha) hN hn hr2 (by decide) fuel 0 seed (le_refl _)
    hpos.le hscan
  exact ⟨hpos, next_free_loop_seed sys d next seq hn fuel seed seed2 hscan,
    next_free_loop_seed sys (mtd_erase d next 2) next seq hn fuel seed seed2 hframe⟩

/-- The device after the staleness check of the forward candidate has the geometry and the
faults of the device before. -/
theorem stale_erase_geometry (d : Mtd) (next : Int) (c : Bool) :
    (if c = true then mtd_erase d next 2 else d).mtdsize = d.mtdsize ∧
    (if c = true then mtd_erase d next 2 else d).erasesize = d.erasesize ∧
    (if c = true then mtd_erase d next 2 else d).bad = d.bad := by
  cases c
  · exact ⟨rfl, rfl, rfl⟩
  · exact ⟨rfl, rfl, rfl⟩

/-- C17, as stated, fails. On the device with a Data record of sequence 5 at unit 0 and, at
unit 3, a Config header of sequence 5 whose digest is not the digest of the payload behind it,
the forward scan returns unit 1 with the sequence 5 and `config_find` returns unit 3 with a
forward candidate that is no Config and a sentinel header that is a Config of sequence 5: no
staleness check fires, the forward candidate is invalid, the sentinel is valid and `next` is
nonzero. `snapshot_sync` reads the sentinel record, the reader rejects it for its digest, and
the sync ends without an erase or a write: unit 1 is still erased. -/
theorem C17_unverified_sentinel_is_not_demoted :
    snapshot_next_free example_sys example_torn_sentinel (example_rnd 0) 3 = some (1, 5) ∧
    (config_find example_sys example_torn_sentinel (example_rnd 1) 3 example_hdr0
      example_hdr0).map (fun r => (r.1, is_config r.2.1, is_config r.2.2, r.2.2.seq))
      = some (3, false, true, 5) ∧
    (snapshot_sync example_sys example_torn_sentinel (fun _ => none) example_rnd 3 example_hdr0
      example_hdr0).map (fun r => (r.1.log, (read_hdr example_sys r.1 64).map (fun h => h.magic)))
      = some ([], some 0xffffffff) :=
  ⟨by decide, by decide, by decide⟩

/-- C17, amended. Let the forward scan of `snapshot_sync` return the nonzero unit `next` with
the sequence `seq` and `config_find` the unit `block` with the headers `conf` and `sentinel`,
where `conf` is not a Config with the sequence `seq` (the forward candidate is invalid after
the staleness checks) and `sentinel` is a Config with the sequence `seq` (the sentinel is valid
after them). Let `d1` be the device as the staleness checks leave it. If the sentinel record
is on `d1` at `block` with a payload that has the digest of its header, the staging file
`/tmp/config.tar.gz` is absent or no longer than that payload, and the record fits at `next`,
then on a fault-free device the sync returns, the record at unit `next` is a Config record
with the sequence of the sentinel, the length and the digest of the sentinel's payload and
that payload behind the header, and the staging file is gone. -/
theorem C17_demotion_of_verified_sentinel (sys : Sys) (d : Mtd) (fs : Fs) (rnd : Nat → Nat)
    (fuel : Nat) (conf0 sentinel0 : file_header) (next block : Int) (seq : Nat)
    (conf sentinel : file_header) (payload : List Nat) (d1 : Mtd)
    (hgood : d.fault_free) (hE : 32 ≤ d.erasesize) (hEm : d.erasesize ≤ 1073741824)
    (hsize : d.mtdsize ≤ 2147483647)
    (hscan : snapshot_next_free sys d (rnd 0) fuel = some (next, seq))
    (hfind : config_find sys d (rnd 1) fuel conf0 sentinel0 = some (block, conf, sentinel))
    (hconf : ¬ (is_config conf = true ∧ conf.seq = seq))
    (hsent : is_config sentinel = true) (hsseq : sentinel.seq = seq) (hnext : next ≠ 0)
    (hd1 : d1 = if (is_config conf && conf.seq != seq) = true then mtd_erase d next 2 else d)
    (hrec : read_hdr sys d1 (block * d.erasesize) = some sentinel)
    (hpay : mtd_read_buffer d1 (block * d.erasesize + 32) sentinel.length = some payload)
    (hdig : sys.md5 payload = (sentinel.md5_0, sentinel.md5_1, sentinel.md5_2, sentinel.md5_3))
    (hwf : digest_wf (sys.md5 payload)) (hseq32 : sentinel.seq < 4294967296)
    (hstage : ((fs "/tmp/config.tar.gz").getD []).length ≤ payload.length)
    (hfit : next * d.erasesize + d.erasesize * span d.erasesize payload.length ≤ d.mtdsize) :
    ∃ d2 fs2, snapshot_sync sys d fs rnd fuel conf0 sentinel0 = some (d2, fs2) ∧
      read_hdr sys d2 (next * d.erasesize)
        = some ⟨OWRT, CONF, sentinel.seq, payload.length, (sys.md5 payload).1,
            (sys.md5 payload).2.1, (sys.md5 payload).2.2.1, (sys.md5 payload).2.2.2⟩ ∧
      mtd_read_buffer d2 (next * d.erasesize + 32) payload.length = some payload ∧
      fs2 "/tmp/config.tar.gz" = none := by
  obtain ⟨g1, g2, g3⟩ := stale_erase_geometry d next (is_config conf && conf.seq != seq)
  rw [← hd1] at g1 g2 g3
  have hgood1 : d1.fault_free := fun a => by rw [g3]; exact hgood a
  have hlen : payload.length = sentinel.length := by
    rw [((mtd_read_buffer_eq_some d1 _ _ payload).1 hpay).2]; simp
  have hspan := span_bounds d.erasesize payload.length (by omega)
  have hfit32 : next * d.erasesize + 32 ≤ d.mtdsize := by
    unfold span at hfit
    linarith
  obtain ⟨hpos, hs0, hs1⟩ := scan_after_erase sys d next seq (rnd 0) (rnd 2) fuel hgood hE hEm
    hsize hscan hnext hfit32
  have hscan1 : snapshot_next_free sys d1 (rnd 2) fuel = some (next, seq) := by
    rw [hd1]
    split
    · exact hs1
    · exact hs0
  have hrange := read_hdr_range sys d1 _ _ hrec
  rw [g1] at hrange
  have hblock : 1 ≤ block :=
    unit_pos_of_read d.erasesize block _ (by omega) hrange.1 rfl
      (config_find_unit sys d _ _ _ _ _ _ _ hfind)
  have hvalid := config_find_valid sys d _ _ _ _ _ _ _ hfind hblock
  obtain ⟨hret, hoff⟩ := read_advance_pos d.erasesize block d.mtdsize (by omega) hblock
    hrange.2 hsize
  have hmagic : sentinel.magic = OWRT ∧ sentinel.type = CONF := by
    simpa [is_config] using hsent
  have hread := snapshot_read_file_ok sys d1 fs block "/tmp/config.tar.gz" CONF sentinel payload
    (by rw [g2, hoff]; exact hrec) hmagic.1 hmagic.2 hvalid (by rw [g2, hoff]; exact hpay) hdig
    (by rw [← hlen]; exact hstage)
  rw [g2] at hread
  have hw := snapshot_write_file_ok sys d1 (fs.set "/tmp/config.tar.gz" (some payload)) next
    "/tmp/config.tar.gz" sentinel.seq CONF payload (by simp [Fs.set]) hgood1 (by rw [g2]; omega)
    hpos.le (by rw [g1, g2]; exact hfit) (by rw [g1]; exact hsize) hseq32 (by decide) hwf
  obtain ⟨hw1, -, -, -, hw2, hw3, -⟩ := hw
  rw [g2] at hw2 hw3
  have hss : (is_config sentinel && sentinel.seq != seq) = false := by
    rw [hsent, hsseq]; simp
  have hvw : volatile_write sys d1 (fs.set "/tmp/config.tar.gz" (some payload)) (rnd 2) fuel
      sentinel.seq = some (snapshot_write_file sys d1
        (fs.set "/tmp/config.tar.gz" (some payload)) next "/tmp/config.tar.gz" sentinel.seq
        CONF) := by
    unfold volatile_write
    rw [hscan1]
    simp only []
    rw [seq_choice _ _ hsseq, clamp_block next hpos]
  refine ⟨(snapshot_write_file sys d1 (fs.set "/tmp/config.tar.gz" (some payload)) next
    "/tmp/config.tar.gz" sentinel.seq CONF).2,
    (fs.set "/tmp/config.tar.gz" (some payload)).set "/tmp/config.tar.gz" none, ?_, hw2, hw3,
    by simp [Fs.set]⟩
  clear hw2 hw3 hw1 hwf hfit hfit32 hspan hrange hs0 hs1 hscan1 hpay hrec hdig hstage
  have hc : is_config (if (is_config conf && conf.seq != seq) = true
      then { conf with magic := 0 } else conf) = false := by
    cases hcs : (is_config conf && conf.seq != seq)
    · rw [if_neg (by decide)]
      cases hic : is_config conf
      · rfl
      · rw [hic, Bool.true_and] at hcs
        exact absurd ⟨hic, by simpa using hcs⟩ hconf
    · rw [if_pos rfl]
      exact is_config_cleared conf
  unfold snapshot_sync
  rw [hscan, hfind]
  simp only []
  rw [← hd1]
  simp only [hss, Bool.false_eq_true, if_false]
  simp only [hc]
  simp only [hsent, Bool.not_false, Bool.not_true, Bool.and_false, Bool.false_and,
    Bool.or_false, Bool.false_eq_true, if_false, Bool.true_and, decide_eq_true_eq, ne_eq,
    hnext, not_false_eq_true, if_true, hread, hret, hvw, Option.map_some']

/-- C17, amended, at the device with a Data record of sequence 5 at unit 0 and the verified
sentinel copy with the sequence 5 and the payload `6, 6` at unit 3: after the sync unit 1
holds a Config record with the sequence 5 and the payload `6, 6`. -/
theorem C17_demotion_of_verified_sentinel_witness :
    (snapshot_sync example_sys example_sentinel_only (fun _ => none) example_rnd 3 example_hdr0
      example_hdr0).map (fun r => ((read_hdr example_sys r.1 64).map
        (fun h => (h.magic, h.type, h.seq, h.length)), mtd_read_buffer r.1 96 2,
        r.2 "/tmp/config.tar.gz")) = some (some (OWRT, CONF, 5, 2), some [6, 6], none) := by
  obtain ⟨d2, fs2, h1, h2, h3, h4⟩ := C17_demotion_of_verified_sentinel example_sys
    example_sentinel_only (fun _ => none) example_rnd 3 example_hdr0 example_hdr0 1 3 5
    ⟨1465013316, 1096040704, 1280, 768, 768, 1536, 53648128, 257⟩
    ⟨OWRT, CONF, 5, 2, 2, 12, 6919, 6⟩ [6, 6] example_sentinel_only (fun _ => rfl) (by decide)
    (by decide) (by decide) (by decide) (by decide) (by decide) (by decide) (by decide)
    (by decide) rfl (by decide) (by decide) (by decide) (by decide) (by decide) (by decide)
    (by decide)
  have e1 : (1 : Int) * example_sentinel_only.erasesize = 64 := by decide
  have e2 : (1 : Int) * example_sentinel_only.erasesize + 32 = 96 := by decide
  rw [e1] at h2
  rw [e2] at h3
  have h5 : mtd_read_buffer d2 96 2 = some [6, 6] := h3
  rw [h1, Option.map_some']
  simp only [h2, h4, h5, Option.map_some', List.length_cons, List.length_nil]

/-! ## Round trip of the writer and the reader -/

/-- On a fault-free device, a source of valid size written at a unit where it fits is read
back into a destination that is absent or no longer than the source: the destination then
holds the bytes of the source. -/
theorem roundtrip_short_destination (sys : Sys) (d : Mtd) (fs : Fs) (block : Int)
    (src dst : String) (seq type : Nat) (bytes : List Nat) (hfile : fs src = some bytes)
    (hgood : d.fault_free) (hE : 0 < d.erasesize) (hb : 0 ≤ block)
    (hfit : block * d.erasesize + d.erasesize * span d.erasesize bytes.length ≤ d.mtdsize)
    (hsize : d.mtdsize ≤ 2147483647) (hseq : seq < 4294967296) (htype : type < 4294967296)
    (hmd5 : digest_wf (sys.md5 bytes)) (hsane : valid_file_size (i32 bytes.length) = 0)
    (hdst : ((fs dst).getD []).length ≤ bytes.length) :
    (snapshot_write_file sys d fs block src seq type).1 = 0 ∧
    snapshot_read_file sys (snapshot_write_file sys d fs block src seq type).2 fs block dst type
      = (i32 (block + i32 (Int.tdiv (pad_file_size d.erasesize (i32 (0 : Nat))) d.erasesize)),
         fs.set dst (some bytes)) := by
  obtain ⟨w1, -, he, -, hh, hp, -⟩ := snapshot_write_file_ok sys d fs block src seq type bytes
    hfile hgood hE hb hfit hsize hseq htype hmd5
  have hoff : i32 (block * d.erasesize) = block * d.erasesize :=
    (record_range d.erasesize block (span d.erasesize bytes.length) bytes.length d.mtdsize hE hb
      (span_pos d.erasesize bytes.length hE) (Int.natCast_nonneg _)
      (span_bounds d.erasesize bytes.length hE).1 hfit hsize).1.2.1
  refine ⟨w1, ?_⟩
  have hread := snapshot_read_file_ok sys (snapshot_write_file sys d fs block src seq type).2 fs
    block dst type ⟨OWRT, type, seq, bytes.length, (sys.md5 bytes).1, (sys.md5 bytes).2.1,
      (sys.md5 bytes).2.2.1, (sys.md5 bytes).2.2.2⟩ bytes (by rw [he, hoff]; exact hh) rfl rfl
    hsane
    (by rw [he, hoff]; exact hp) rfl hdst
  rw [he] at hread
  exact hread

/-! ## Sentinel locator against the length bound of the specification -/

/-- C7. Two devices on which no header read fails. On the first the forward scan returns
unit 1, the greatest unit of `[1, 5]` that holds a Config with a sane length,
`0 < length <= 8 MiB`, is unit 2, and `config_find` returns unit 4, whose header has the
length 9000000: the length check of the source accepts it. On the second the greatest such
unit of `[1, 3]` is unit 2, and `config_find` does not return for any value of `rand()` and
any number of rounds: the forward scan it starts with reads the Data header with the length
0 at unit 0 again and again. -/
theorem C7_config_find_misses_greatest_sane_config :
    ((List.range 6).all (fun i =>
        (read_hdr example_sys example_oversized_config ((i : Int) * 64)).isSome) = true ∧
      (read_hdr example_sys example_oversized_config 1).isSome = true ∧
      example_oversized_config.mtdsize / example_oversized_config.erasesize = 6 ∧
      snapshot_next_free example_sys example_oversized_config 7 3 = some (1, 5) ∧
      config_at example_sys example_oversized_config 2 ∧
      ¬ config_at example_sys example_oversized_config 3 ∧
      ¬ config_at example_sys example_oversized_config 4 ∧
      ¬ config_at example_sys example_oversized_config 5 ∧
      (read_hdr example_sys example_oversized_config (4 * 64)).map
          (fun h => (h.magic, h.type, h.length)) = some (OWRT, CONF, 9000000) ∧
      (config_find example_sys example_oversized_config 7 3 example_hdr0 example_hdr0).map
          (fun r => r.1) = some 4) ∧
    ((List.range 4).all (fun i =>
        (read_hdr example_sys example_stuck_scan ((i : Int) * 64)).isSome) = true ∧
      example_stuck_scan.mtdsize / example_stuck_scan.erasesize = 4 ∧
      config_at example_sys example_stuck_scan 2 ∧
      ¬ config_at example_sys example_stuck_scan 3 ∧
      ∀ seed fuel : Nat,
        config_find example_sys example_stuck_scan seed fuel example_hdr0 example_hdr0 = none) := by
  refine ⟨⟨by decide, by decide, by decide, by decide, by decide, by decide, by decide,
    by decide, by decide, by decide⟩, by decide, by decide, by decide, by decide, ?_⟩
  intro seed fuel
  have hspin : snapshot_next_free example_sys example_stuck_scan seed fuel = none :=
    next_free_loop_spins example_sys example_stuck_scan 0 ⟨OWRT, DATA, 5, 0, 0, 0, 0, 0⟩
      (by decide) (by decide) (by decide) (by decide) fuel seed
  simp only [config_find, hspin]

end Snapshot
